import Mathlib

/-!
Resumable download engine of `lulu` (`src/core/download_manager.cpp`).

A shallow embedding of `DownloadManager`: the member fields become a record,
every member function becomes a pure function on that record, and the objects
the manager talks to (the file system, the network reply, the timers and the
signal surface) are explicit components of the same record.

Conventions of the embedding:

* `qint64` values are integers; every `qint64` addition, subtraction and
  multiplication of the source is followed by `wrap64`, the two's-complement
  reduction to 64 bits.
* `int` values produced by `static_cast<int>` from a `qint64` are reduced by
  `toInt32`.
* `m_downloadSpeed` is a `double` in the source.  It is only ever assigned a
  `qint64` difference, so it is represented by that integer (the conversion is
  exact for magnitudes up to `2 ^ 53`), and the quotient
  `remainingBytes / m_downloadSpeed` is represented by its truncation.
* The slots connected to the reply (`onDownloadProgress`, `onReadyRead`,
  `onFinished`) receive what the source reads from `m_reply` inside the slot
  (`readAll()`, `error()`) as arguments.
* The signals of the reply are events of the environment.  `step` and `run`
  assume no order between `readyRead` and `downloadProgress`, and the
  arguments of `downloadProgress` mean only what `onDownloadProgress` does
  with them.  `qtSessionEvents` is the sequence a `QNetworkReply` delivers:
  `readyRead` for a piece of data, then `downloadProgress` carrying the number
  of bytes received so far in the session and the content length.
* `QNetworkReply::abort()` emits `finished()` before it returns when the reply
  has not finished yet.  In `cancelDownload`, which nulls `m_reply` right
  after the call, the slot `onFinished` therefore runs inside the call
  (`abort`).  `pauseDownload` leaves the reply in place, marked as aborted,
  and its `finished()` is the event `finished true` that follows
  (`pauseDownload_then_finished`).
-/

namespace Lulu

/-! ## Machine integers -/

/-- Two's-complement reduction of an integer to the range of `qint64`. -/
def wrap64 (x : Int) : Int :=
  (x + 9223372036854775808) % 18446744073709551616 - 9223372036854775808

/-- Conversion `static_cast<int>` of a `qint64` value: reduction to 32 bits. -/
def toInt32 (x : Int) : Int :=
  (x + 2147483648) % 4294967296 - 2147483648

/-- Conversion `static_cast<int>` of a `double` whose truncation is `x`: the
value itself when it fits an `int`, undefined (`none`) otherwise. -/
def doubleToInt (x : Int) : Option Int :=
  if -2147483648 ≤ x ∧ x ≤ 2147483647 then some x else none

/-! ## Collaborators -/

/-- Raw bytes, as in `QByteArray`. -/
abbrev QByteArray := List UInt8

/-- The file system seen through `QFile`: the content of every existing file,
and the paths that cannot be opened for writing (missing permission, missing
directory that `mkpath` could not create, and so on). -/
structure FileSystem where
  files : String → Option QByteArray
  unwritable : String → Bool

namespace FileSystem

/-- Model of `QFile::exists`. -/
def «exists» (fs : FileSystem) (p : String) : Bool :=
  (fs.files p).isSome

/-- Model of `QFile::size`: the number of bytes of the file, `0` when there is none. -/
def size (fs : FileSystem) (p : String) : Int :=
  (((fs.files p).getD []).length : Int)

/-- Model of `QFile::open(WriteOnly | Append)`: fails on an unwritable path,
creates an empty file when there is none, keeps the content otherwise. -/
def openAppend (fs : FileSystem) (p : String) : Option FileSystem :=
  if fs.unwritable p then none
  else some { fs with files := fun q => if q = p then some ((fs.files p).getD []) else fs.files q }

/-- Model of `QFile::write` on a file opened for appending. -/
def write (fs : FileSystem) (p : String) (data : QByteArray) : FileSystem :=
  { fs with files := fun q => if q = p then some ((fs.files p).getD [] ++ data) else fs.files q }

/-- Model of `QFile::remove`. -/
def remove (fs : FileSystem) (p : String) : FileSystem :=
  { fs with files := fun q => if q = p then none else fs.files q }

/-- Model of `QFile::rename`: does nothing when the source is missing or the
target exists, moves the content otherwise. -/
def rename (fs : FileSystem) (p newName : String) : FileSystem :=
  match fs.files p, fs.files newName with
  | some c, none =>
      { fs with files := fun q => if q = newName then some c else if q = p then none else fs.files q }
  | _, _ => fs

end FileSystem

/-- The request handed to `QNetworkAccessManager::get`. -/
structure QNetworkRequest where
  url : String
  rawHeaders : List (String × String)
deriving DecidableEq, Repr

namespace QNetworkRequest

/-- Model of `QNetworkRequest::setRawHeader`. -/
def setRawHeader (r : QNetworkRequest) (name value : String) : QNetworkRequest :=
  { r with rawHeaders := r.rawHeaders.filter (fun h => h.1 ≠ name) ++ [(name, value)] }

/-- Model of `QNetworkRequest::rawHeader`. -/
def rawHeader (r : QNetworkRequest) (name : String) : Option String :=
  r.rawHeaders.lookup name

end QNetworkRequest

/-- The transfer session `m_reply` points to. -/
structure QNetworkReply where
  request : QNetworkRequest
  aborted : Bool
deriving DecidableEq, Repr

/-- The signals of `DownloadManager`. -/
inductive Signal where
  | downloadProgress (bytesReceived totalBytes : Int)
  | downloadFinished (filePath : String)
  | downloadError (error : String)
  | downloadSpeedUpdated (bytesPerSecond : Int)
  | checksumVerified (success : Bool)
deriving DecidableEq, Repr

/-- Recognises a `downloadError` emission. -/
def Signal.isDownloadError : Signal → Bool
  | .downloadError _ => true
  | _ => false

/-- The speed carried by a `downloadSpeedUpdated` emission. -/
def Signal.speed? : Signal → Option Int
  | .downloadSpeedUpdated v => some v
  | _ => none

/-! ## The manager -/

/-- Constant `DownloadManager::MAX_RETRIES`. -/
def MAX_RETRIES : Int := 3

/-- The fields of `DownloadManager` (`m_file` is the name of the `QFile` it
points to, `speedTimerActive` the state of `m_speedTimer`), followed by the
environment: the file system, the signals emitted so far, the requests sent so
far and the number of `QTimer::singleShot` retries not fired yet. -/
structure DownloadManager where
  m_reply : Option QNetworkReply
  m_file : Option String
  m_url : String
  m_destination : String
  m_expectedChecksum : String
  m_isDownloading : Bool
  m_bytesReceived : Int
  m_totalBytes : Int
  m_previousBytes : Int
  m_downloadSpeed : Int
  speedTimerActive : Bool
  m_retryCount : Int
  fs : FileSystem
  emitted : List Signal
  sent : List QNetworkRequest
  pendingRetries : Nat

/-- The constructor `DownloadManager::DownloadManager`, on a given file system. -/
def DownloadManager.new (fs : FileSystem) : DownloadManager :=
  { m_reply := none, m_file := none, m_url := "", m_destination := "",
    m_expectedChecksum := "", m_isDownloading := false, m_bytesReceived := 0,
    m_totalBytes := 0, m_previousBytes := 0, m_downloadSpeed := 0,
    speedTimerActive := false, m_retryCount := 0, fs := fs, emitted := [],
    sent := [], pendingRetries := 0 }

/-- Appends a signal to the emission log (`emit`). -/
def emit (w : DownloadManager) (s : Signal) : DownloadManager :=
  { w with emitted := w.emitted ++ [s] }

/-- The request `startDownload` builds for `url` once `m_bytesReceived` is
`received`: the `User-Agent` header, and the `Range` header when resuming. -/
def downloadRequest (url : String) (received : Int) : QNetworkRequest :=
  let request : QNetworkRequest :=
    QNetworkRequest.setRawHeader { url := url, rawHeaders := [] } "User-Agent" "LinuxDroid/1.0"
  if received > 0 then
    request.setRawHeader "Range" ("bytes=" ++ toString received ++ "-")
  else request

/-- Function `DownloadManager::startDownload`. -/
def startDownload (w : DownloadManager) (url destination : String) : DownloadManager :=
  if w.m_isDownloading then
    emit w (.downloadError "Download already in progress")
  else
    let part := destination ++ ".part"
    let received : Int := if w.fs.exists part then w.fs.size part else 0
    let w1 : DownloadManager :=
      { w with m_url := url, m_destination := destination, m_bytesReceived := received,
               m_totalBytes := 0, m_previousBytes := 0, m_retryCount := 0 }
    match w.fs.openAppend part with
    | none =>
        emit { w1 with m_file := none }
          (.downloadError ("Cannot open file for writing: " ++ destination))
    | some fs1 =>
        let request := downloadRequest url received
        { w1 with fs := fs1, m_file := some part,
                  m_reply := some { request := request, aborted := false },
                  sent := w.sent ++ [request],
                  m_isDownloading := true, speedTimerActive := true }

/-- Function `DownloadManager::pauseDownload`.  The reply stays in place,
marked as aborted; the `finished()` signal of the aborted reply is the event
`finished true` (see `pauseDownload_then_finished`). -/
def pauseDownload (w : DownloadManager) : DownloadManager :=
  if !w.m_isDownloading then w
  else
    { w with m_reply := w.m_reply.map (fun r => { r with aborted := true }),
             m_isDownloading := false, speedTimerActive := false }

/-- Function `DownloadManager::resumeDownload`. -/
def resumeDownload (w : DownloadManager) : DownloadManager :=
  if w.m_isDownloading then w
  else startDownload w w.m_url w.m_destination

/-- Slot `DownloadManager::onDownloadProgress`. -/
def onDownloadProgress (w : DownloadManager) (bytesReceived totalBytes : Int) : DownloadManager :=
  let received := wrap64 (w.m_bytesReceived + bytesReceived)
  let total :=
    if totalBytes > 0 then
      wrap64 (totalBytes +
        (match w.m_file with
         | some f => wrap64 (w.fs.size f - bytesReceived)
         | none => 0))
    else w.m_totalBytes
  emit { w with m_bytesReceived := received, m_totalBytes := total }
    (.downloadProgress received total)

/-- Slot `DownloadManager::onReadyRead`; `data` is what `m_reply->readAll()` returns. -/
def onReadyRead (w : DownloadManager) (data : QByteArray) : DownloadManager :=
  match w.m_file with
  | some f => { w with fs := w.fs.write f data }
  | none => w

/-- Slot `DownloadManager::onFinished`; `error` tells whether
`m_reply->error() != QNetworkReply::NoError`, `data` is what
`m_reply->readAll()` returns. -/
def onFinished (w : DownloadManager) (error : Bool) (data : QByteArray) : DownloadManager :=
  let w0 : DownloadManager := { w with speedTimerActive := false, m_isDownloading := false }
  if error then
    let w1 : DownloadManager := { w0 with m_file := none }
    let w2 : DownloadManager :=
      if w1.m_retryCount < MAX_RETRIES then
        { w1 with m_retryCount := w1.m_retryCount + 1, pendingRetries := w1.pendingRetries + 1 }
      else
        emit w1 (.downloadError ("Download failed after " ++ toString MAX_RETRIES ++ " retries"))
    { w2 with m_reply := none }
  else
    let w1 : DownloadManager :=
      match w0.m_file with
      | some f =>
          let finalName := w0.m_destination
          let fs1 := w0.fs.write f data
          let fs2 := fs1.remove finalName
          { w0 with fs := fs2.rename f finalName, m_file := none }
      | none => w0
    emit { w1 with m_reply := none } (.downloadFinished w1.m_destination)

/-- The call `m_reply->abort()` on the reply `r` that `m_reply` points to.
`QNetworkReply::abort()` returns at once on a reply that was aborted before;
on any other reply it emits `finished()` before it returns, and `finished` is
connected to `onFinished`, so the slot runs inside the call, with
`m_reply->error()` being `OperationCanceledError`. -/
def abort (w : DownloadManager) (r : QNetworkReply) : DownloadManager :=
  if r.aborted then w else onFinished w true []

/-- Tells whether `cancelDownload` makes the call `m_reply->deleteLater()`
(line 117) on a null pointer: `m_reply` is set on entry, and the slot run
inside `m_reply->abort()` (line 116) has set it to null. -/
def cancelCallsNullReply (w : DownloadManager) : Bool :=
  match w.m_reply with
  | some r => (abort w r).m_reply.isNone
  | none => false

/-- Function `DownloadManager::cancelDownload`.  When `cancelCallsNullReply`
holds, the call `m_reply->deleteLater()` is made on a null pointer; the state
returned is the one reached when that call has no effect. -/
def cancelDownload (w : DownloadManager) : DownloadManager :=
  let w1 : DownloadManager :=
    match w.m_reply with
    | some r => { abort w r with m_reply := none }
    | none => w
  let w2 : DownloadManager :=
    match w1.m_file with
    | some f => { w1 with fs := w1.fs.remove f, m_file := none }
    | none => w1
  { w2 with m_isDownloading := false, speedTimerActive := false }

/-- Function `DownloadManager::calculateSpeed`. -/
def calculateSpeed (w : DownloadManager) : DownloadManager :=
  let currentBytes := w.m_bytesReceived
  let bytesDiff := wrap64 (currentBytes - w.m_previousBytes)
  { w with m_downloadSpeed := bytesDiff, m_previousBytes := currentBytes }

/-- Slot `DownloadManager::updateSpeed`. -/
def updateSpeed (w : DownloadManager) : DownloadManager :=
  let w1 := calculateSpeed w
  emit w1 (.downloadSpeedUpdated w1.m_downloadSpeed)

/-- Function `DownloadManager::progressPercentage`. -/
def progressPercentage (w : DownloadManager) : Int :=
  if w.m_totalBytes = 0 then 0
  else toInt32 (Int.tdiv (wrap64 (w.m_bytesReceived * 100)) w.m_totalBytes)

/-- The local `secondsRemaining` of `estimatedTimeRemaining`, past its guard. -/
def secondsRemaining (w : DownloadManager) : Option Int :=
  doubleToInt (Int.tdiv (wrap64 (w.m_totalBytes - w.m_bytesReceived)) w.m_downloadSpeed)

/-- The three formats of `estimatedTimeRemaining`, from the `int` number of seconds. -/
def formatRemaining (secondsRemaining : Int) : String :=
  let hours := Int.tdiv secondsRemaining 3600
  let minutes := Int.tdiv (Int.tmod secondsRemaining 3600) 60
  let seconds := Int.tmod secondsRemaining 60
  if hours > 0 then toString hours ++ "h " ++ toString minutes ++ "m"
  else if minutes > 0 then toString minutes ++ "m " ++ toString seconds ++ "s"
  else toString seconds ++ "s"

/-- Function `DownloadManager::estimatedTimeRemaining`; `none` when the
conversion of the quotient to `int` is undefined. -/
def estimatedTimeRemaining (w : DownloadManager) : Option String :=
  if w.m_downloadSpeed ≤ 0 ∨ w.m_totalBytes ≤ 0 then some "Calculating..."
  else (secondsRemaining w).map formatRemaining

/-! ## Events -/

/-- What can happen to a manager: the four public operations, the three
signals of the current reply, the tick of `m_speedTimer` and the firing of a
pending `QTimer::singleShot` retry. -/
inductive Event where
  | start (url destination : String)
  | pause
  | resume
  | cancel
  | progress (bytesReceived totalBytes : Int)
  | readyRead (data : QByteArray)
  | finished (error : Bool) (data : QByteArray)
  | speedTick
  | retryFire

/-- Dispatch of one event.  A reply signal reaches its slot only while
`m_reply` is set, a tick only while `m_speedTimer` runs, and a retry only when
one is pending. -/
def step (w : DownloadManager) : Event → DownloadManager
  | .start url destination => startDownload w url destination
  | .pause => pauseDownload w
  | .resume => resumeDownload w
  | .cancel => cancelDownload w
  | .progress b t => if w.m_reply.isSome then onDownloadProgress w b t else w
  | .readyRead data => if w.m_reply.isSome then onReadyRead w data else w
  | .finished error data => if w.m_reply.isSome then onFinished w error data else w
  | .speedTick => if w.speedTimerActive then updateSpeed w else w
  | .retryFire =>
      if 0 < w.pendingRetries then resumeDownload { w with pendingRetries := w.pendingRetries - 1 }
      else w

/-- Dispatch of a sequence of events, in order. -/
def run (w : DownloadManager) (es : List Event) : DownloadManager :=
  es.foldl step w

/-- A file system holding nothing, every path writable. -/
def FileSystem.empty : FileSystem :=
  { files := fun _ => none, unwritable := fun _ => false }

/-- A file system holding one file, every path writable. -/
def FileSystem.single (p : String) (content : QByteArray) : FileSystem :=
  { files := fun q => if q = p then some content else none, unwritable := fun _ => false }

/-- One round of the retry loop: the current session ends with a transport
error (its unread data being `data`), then the scheduled retry fires. -/
def retryRound (w : DownloadManager) (data : QByteArray) : DownloadManager :=
  step (step w (.finished true data)) .retryFire

/-- As many rounds of the retry loop as `ds` has entries. -/
def retryRounds (w : DownloadManager) (ds : List QByteArray) : DownloadManager :=
  ds.foldl retryRound w

/-- The progress events of a list of chunks: each chunk is the pair of
arguments `(bytesReceived, totalBytes)` of one `onDownloadProgress` call. -/
def progressEvents (chunks : List (Int × Int)) : List Event :=
  chunks.map (fun c => Event.progress c.1 c.2)

/-- Sum of the first arguments of a list of chunks. -/
def chunkSum (chunks : List (Int × Int)) : Int :=
  (chunks.map Prod.fst).sum

/-- The signals of one session in the order `QNetworkReply` delivers them.
Each entry of `chunks` is a piece of data and whether `downloadProgress` is
emitted after it (the signal is throttled): `readyRead` comes first, so that
`onReadyRead` has written the piece, then `downloadProgress` with the number
of bytes received so far in the session (`count` before the first entry) and
the content length `total` of the response. -/
def qtSessionEvents (total : Int) : Int → List (QByteArray × Bool) → List Event
  | _, [] => []
  | count, (data, reported) :: rest =>
      (if reported then
        [Event.readyRead data, Event.progress (count + (data.length : Int)) total]
       else [Event.readyRead data])
        ++ qtSessionEvents total (count + (data.length : Int)) rest

/-- The destination for which an event restarts the transfer, when it does:
`startDownload`, `resumeDownload` and a pending retry, on a manager that is
not downloading. -/
def restartTarget (w : DownloadManager) : Event → Option String
  | .start _ destination => if w.m_isDownloading then none else some destination
  | .resume => if w.m_isDownloading then none else some w.m_destination
  | .retryFire =>
      if 0 < w.pendingRetries ∧ w.m_isDownloading = false then some w.m_destination else none
  | _ => none

/-- One sampling interval: the progress events of `chunks` arrive, then
`m_speedTimer` ticks. -/
def sampleInterval (w : DownloadManager) (chunks : List (Int × Int)) : DownloadManager :=
  step (run w (progressEvents chunks)) .speedTick

/-- A sequence of sampling intervals, in order. -/
def sampleIntervals (w : DownloadManager) (intervals : List (List (Int × Int))) :
    DownloadManager :=
  intervals.foldl sampleInterval w

/-- The speeds carried by the `downloadSpeedUpdated` signals emitted so far, in order. -/
def reportedSpeeds (w : DownloadManager) : List Int :=
  w.emitted.filterMap Signal.speed?

/-! ## Checksum verification -/

/-- Model of `QString::toLower`: every upper-case ASCII letter is lowered.  It
agrees with the library function on hexadecimal digits and ASCII letters. -/
def toLower (s : String) : String :=
  String.mk (s.data.map Char.toLower)

/-- Function `DownloadManager::setExpectedChecksum`. -/
def setExpectedChecksum (w : DownloadManager) (sha256 : String) : DownloadManager :=
  { w with m_expectedChecksum := sha256 }

/-- Function `DownloadManager::verifyChecksum`, returning its result and the
manager.  The digest of the library is a parameter: `digestHex content` is
`QString(hash.result().toHex())` after `hash.addData` read a file of content
`content`, and `readOk` tells whether `hash.addData` succeeded.  Opening the
file for reading succeeds when the file exists. -/
def verifyChecksum (digestHex : QByteArray → String) (readOk : Bool) (w : DownloadManager) :
    Bool × DownloadManager :=
  if w.m_expectedChecksum.isEmpty then (true, w)
  else
    match w.fs.files w.m_destination with
    | none => (false, emit w (.checksumVerified false))
    | some content =>
        if readOk then
          let calculatedHash := digestHex content
          let matched := decide (toLower calculatedHash = toLower w.m_expectedChecksum)
          (matched, emit w (.checksumVerified matched))
        else (false, emit w (.checksumVerified false))

/-- Recognises a `checksumVerified` emission. -/
def Signal.isChecksumVerified : Signal → Bool
  | .checksumVerified _ => true
  | _ => false

/-- Recognises a `downloadFinished` emission. -/
def Signal.isDownloadFinished : Signal → Bool
  | .downloadFinished _ => true
  | _ => false

/-- Two characters that differ at most by letter case: the second is the
first, its upper-case form or its lower-case form. -/
def sameUpToCase (a b : Char) : Prop :=
  b = a ∨ b = a.toUpper ∨ b = a.toLower

/-- A string obtained from another by changing the case of any of its letters. -/
def caseVariant (e e' : String) : Prop :=
  List.Forall₂ sameUpToCase e.data e'.data

/-- The string obtained by replacing the character at position `i` by `x`. -/
def replaceChar (s : String) (i : Nat) (x : Char) : String :=
  String.mk (s.data.set i x)

/-! ## SHA-256 -/

/-- The 64 round constants of SHA-256 (FIPS 180-4, section 4.2.2). -/
def roundConstants : List Nat :=
  [1116352408, 1899447441, 3049323471, 3921009573, 961987163, 1508970993,
   2453635748, 2870763221, 3624381080, 310598401, 607225278, 1426881987,
   1925078388, 2162078206, 2614888103, 3248222580, 3835390401, 4022224774,
   264347078, 604807628, 770255983, 1249150122, 1555081692, 1996064986,
   2554220882, 2821834349, 2952996808, 3210313671, 3336571891, 3584528711,
   113926993, 338241895, 666307205, 773529912, 1294757372, 1396182291,
   1695183700, 1986661051, 2177026350, 2456956037, 2730485921, 2820302411,
   3259730800, 3345764771, 3516065817, 3600352804, 4094571909, 275423344,
   430227734, 506948616, 659060556, 883997877, 958139571, 1322822218,
   1537002063, 1747873779, 1955562222, 2024104815, 2227730452, 2361852424,
   2428436474, 2756734187, 3204031479, 3329325298]

/-- The eight working words of SHA-256. -/
structure HashState where
  a : Nat
  b : Nat
  c : Nat
  d : Nat
  e : Nat
  f : Nat
  g : Nat
  h : Nat

/-- The initial hash value of SHA-256 (FIPS 180-4, section 5.3.3). -/
def initialHash : HashState :=
  { a := 1779033703, b := 3144134277, c := 1013904242, d := 2773480762, e := 1359893119, f := 2600822924, g := 528734635, h := 1541459225 }

/-- Reduction to a 32-bit word. -/
def word (x : Nat) : Nat := x % 4294967296

/-- Rotation of a 32-bit word to the right. -/
def rotr (x n : Nat) : Nat := (x >>> n) ||| word (x <<< (32 - n))

/-- The six logical functions of SHA-256 (FIPS 180-4, section 4.1.2). -/
def smallSigma0 (x : Nat) : Nat := rotr x 7 ^^^ rotr x 18 ^^^ (x >>> 3)
def smallSigma1 (x : Nat) : Nat := rotr x 17 ^^^ rotr x 19 ^^^ (x >>> 10)
def bigSigma0 (x : Nat) : Nat := rotr x 2 ^^^ rotr x 13 ^^^ rotr x 22
def bigSigma1 (x : Nat) : Nat := rotr x 6 ^^^ rotr x 11 ^^^ rotr x 25
def choose (x y z : Nat) : Nat := (x &&& y) ^^^ ((4294967295 - x) &&& z)
def majority (x y z : Nat) : Nat := (x &&& y) ^^^ (x &&& z) ^^^ (y &&& z)

/-- Padding of a message to a multiple of 64 bytes (FIPS 180-4, section 5.1.1). -/
def padMessage (msg : QByteArray) : List Nat :=
  let bytes := msg.map UInt8.toNat
  let zeros := (119 - bytes.length % 64) % 64
  let bits := 8 * bytes.length
  bytes ++ [128] ++ List.replicate zeros 0 ++
    (List.range 8).map (fun i => (bits >>> (8 * (7 - i))) % 256)

/-- The 64-byte blocks of a padded message; the first argument bounds their number. -/
def splitBlocks : Nat → List Nat → List (List Nat)
  | 0, _ => []
  | n + 1, l => if l.isEmpty then [] else l.take 64 :: splitBlocks n (l.drop 64)

/-- The sixteen big-endian words of a block. -/
def blockWords (block : List Nat) : List Nat :=
  (List.range 16).map (fun i =>
    block.getD (4 * i) 0 * 16777216 + block.getD (4 * i + 1) 0 * 65536 +
      block.getD (4 * i + 2) 0 * 256 + block.getD (4 * i + 3) 0)

/-- The message schedule of a block (FIPS 180-4, section 6.2.2, step 1). -/
def schedule (block : List Nat) : List Nat :=
  (List.range 48).foldl
    (fun w _ =>
      let t := w.length
      w ++ [word (smallSigma1 (w.getD (t - 2) 0) + w.getD (t - 7) 0 +
        smallSigma0 (w.getD (t - 15) 0) + w.getD (t - 16) 0)])
    (blockWords block)

/-- One round of the compression function, on a constant and a schedule word. -/
def sha256Round (s : HashState) (kw : Nat × Nat) : HashState :=
  let t1 := s.h + bigSigma1 s.e + choose s.e s.f s.g + kw.1 + kw.2
  let t2 := bigSigma0 s.a + majority s.a s.b s.c
  { a := word (t1 + t2), b := s.a, c := s.b, d := s.c,
    e := word (s.d + t1), f := s.e, g := s.f, h := s.g }

/-- The compression of one block into the hash value. -/
def compress (s : HashState) (block : List Nat) : HashState :=
  let r := (roundConstants.zip (schedule block)).foldl sha256Round s
  { a := word (s.a + r.a), b := word (s.b + r.b), c := word (s.c + r.c),
    d := word (s.d + r.d), e := word (s.e + r.e), f := word (s.f + r.f),
    g := word (s.g + r.g), h := word (s.h + r.h) }

/-- Lower-case hexadecimal digit, as produced by `QByteArray::toHex`. -/
def hexDigit (n : Nat) : Char :=
  "0123456789abcdef".data.getD (n % 16) '0'

/-- The eight hexadecimal digits of a 32-bit word. -/
def hexWord (x : Nat) : List Char :=
  [hexDigit (x >>> 28), hexDigit (x >>> 24), hexDigit (x >>> 20), hexDigit (x >>> 16),
   hexDigit (x >>> 12), hexDigit (x >>> 8), hexDigit (x >>> 4), hexDigit x]

/-- Model of `QString(hash.result().toHex())` for a `QCryptographicHash` of
algorithm `Sha256` fed a file of content `msg`: the SHA-256 digest of FIPS
180-4 in lower-case hexadecimal. -/
def sha256Hex (msg : QByteArray) : String :=
  let padded := padMessage msg
  let s := (splitBlocks padded.length padded).foldl compress initialHash
  String.mk (hexWord s.a ++ hexWord s.b ++ hexWord s.c ++ hexWord s.d ++
    hexWord s.e ++ hexWord s.f ++ hexWord s.g ++ hexWord s.h)

/-! ## The daemon (`src/daemon.cpp`) -/

/-- The fields of `LinuxDroidDaemon`: the manager it owns, its own
`m_expectedChecksum` (never assigned in the source), the last logged
percentage, the messages passed to `log` and the exit codes requested from
`QCoreApplication` (`quit()` is `exit(0)`). -/
structure LinuxDroidDaemon where
  m_downloadManager : DownloadManager
  m_expectedChecksum : String
  m_lastLoggedPercentage : Int
  logged : List String
  exits : List Int

namespace LinuxDroidDaemon

/-- The constructor `LinuxDroidDaemon::LinuxDroidDaemon`, on a given file
system; `logFileOpens` tells whether the log file could be opened. -/
def new (fs : FileSystem) (logFileOpens : Bool) : LinuxDroidDaemon :=
  { m_downloadManager := DownloadManager.new fs, m_expectedChecksum := "",
    m_lastLoggedPercentage := -1,
    logged := if logFileOpens then ["LinuxDroid daemon started"] else [], exits := [] }

/-- Function `LinuxDroidDaemon::log`, without the time stamp. -/
def log (d : LinuxDroidDaemon) (message : String) : LinuxDroidDaemon :=
  { d with logged := d.logged ++ [message] }

/-- Function `LinuxDroidDaemon::startDownload`. -/
def startDownload (d : LinuxDroidDaemon) (url destination : String) : Event × LinuxDroidDaemon :=
  (Event.start url destination,
    (d.log ("Starting download: " ++ url)).log ("Destination: " ++ destination))

/-- Slot `LinuxDroidDaemon::onDownloadProgress`. -/
def onDownloadProgress (d : LinuxDroidDaemon) (received total : Int) : LinuxDroidDaemon :=
  if total > 0 then
    let percentage := toInt32 (Int.tdiv (wrap64 (received * 100)) total)
    if Int.tmod percentage 10 = 0 ∧ percentage ≠ d.m_lastLoggedPercentage then
      { d.log ("Download progress: " ++ toString percentage ++ "%") with
        m_lastLoggedPercentage := percentage }
    else d
  else d

/-- Slot `LinuxDroidDaemon::onDownloadError`. -/
def onDownloadError (d : LinuxDroidDaemon) (error : String) : LinuxDroidDaemon :=
  { d.log ("Download error: " ++ error) with exits := d.exits ++ [1] }

/-- Slot `LinuxDroidDaemon::onChecksumVerified`. -/
def onChecksumVerified (d : LinuxDroidDaemon) (success : Bool) : LinuxDroidDaemon :=
  if success then
    { d.log "Checksum verification: SUCCESS" with exits := d.exits ++ [0] }
  else
    { d.log "Checksum verification: FAILED" with exits := d.exits ++ [2] }

/-- Slot `LinuxDroidDaemon::onDownloadFinished`.  The `checksumVerified`
signal that `verifyChecksum` emits reaches `onChecksumVerified` at once. -/
def onDownloadFinished (digestHex : QByteArray → String) (readOk : Bool)
    (d : LinuxDroidDaemon) (filePath : String) : LinuxDroidDaemon :=
  let d1 := d.log ("Download completed: " ++ filePath)
  if !d1.m_expectedChecksum.isEmpty then
    let d2 := d1.log "Verifying checksum..."
    let r := verifyChecksum digestHex readOk d2.m_downloadManager
    (r.2.emitted.drop d2.m_downloadManager.emitted.length).foldl
      (fun acc s =>
        match s with
        | .checksumVerified success => acc.onChecksumVerified success
        | _ => acc)
      { d2 with m_downloadManager := r.2 }
  else
    { d1.log "Download finished successfully (no checksum verification)" with
      exits := d1.exits ++ [0] }

/-- The connections made in the constructor: which slot a signal of the
manager reaches. -/
def deliver (digestHex : QByteArray → String) (readOk : Bool) (d : LinuxDroidDaemon) :
    Signal → LinuxDroidDaemon
  | .downloadProgress received total => d.onDownloadProgress received total
  | .downloadFinished filePath => d.onDownloadFinished digestHex readOk filePath
  | .downloadError error => d.onDownloadError error
  | .downloadSpeedUpdated _ => d
  | .checksumVerified success => d.onChecksumVerified success

/-- One event on the manager of a daemon: the manager takes the step, and the
signals it emits meanwhile reach the slots of the daemon in order. -/
def handle (digestHex : QByteArray → String) (readOk : Bool) (d : LinuxDroidDaemon)
    (e : Event) : LinuxDroidDaemon :=
  let m := step d.m_downloadManager e
  (m.emitted.drop d.m_downloadManager.emitted.length).foldl (deliver digestHex readOk)
    { d with m_downloadManager := m }

end LinuxDroidDaemon

/-- What an event must satisfy for the byte counter to stay a `qint64`: a
progress event carries a non-negative chunk size that does not overflow the
counter, and an event restarting the transfer finds a partial file whose size
is a `qint64`. -/
def withinRange (w : DownloadManager) : Event → Prop
  | .progress b _ => 0 ≤ b ∧ w.m_bytesReceived + b < 9223372036854775808
  | e => ∀ d, restartTarget w e = some d → w.fs.size (d ++ ".part") < 9223372036854775808

/-- A sequence of events each of which satisfies `withinRange` in the state
it is dispatched in. -/
def runWithinRange (w : DownloadManager) : List Event → Prop
  | [] => True
  | e :: es => withinRange w e ∧ runWithinRange (step w e) es

/-! ## The instance configuration (`src/core/vm_config.cpp`) -/

/-- The two dimensions of a `QSize`. -/
structure QSize where
  width : Int
  height : Int

/-- The fields of `VMConfig`. -/
structure VMConfig where
  m_name : String
  m_imagePath : String
  m_diskPath : String
  m_instancePath : String
  m_cpuCores : Int
  m_ramMB : Int
  m_resolution : QSize
  m_rootEnabled : Bool
  m_lastError : String

/-- What `VMConfig` reads from the host: which files exist (`QFile::exists`),
`QThread::idealThreadCount()`, and the number that follows `MemTotal:` in
`/proc/meminfo` (`none` when the file or the line is missing). -/
structure Host where
  fileExists : String → Bool
  idealThreadCount : Int
  memTotalKB : Option Int

namespace VMConfig

/-- Function `VMConfig::getMaxCpuCores`. -/
def getMaxCpuCores (host : Host) : Int :=
  host.idealThreadCount

/-- Function `VMConfig::getMaxRamMB`, from the parsed `MemTotal` value. -/
def getMaxRamMB (host : Host) : Int :=
  match host.memTotalKB with
  | some totalKB =>
      let maxMB := wrap64 (Int.tdiv totalKB 1024 - 2048)
      toInt32 (max 2048 maxMB)
  | none => 8192

/-- Function `VMConfig::isValid`. -/
def isValid (c : VMConfig) (host : Host) : Bool :=
  if c.m_name.isEmpty then false
  else if !host.fileExists c.m_imagePath then false
  else if c.m_cpuCores < 1 ∨ c.m_cpuCores > getMaxCpuCores host then false
  else if c.m_ramMB < 512 ∨ c.m_ramMB > getMaxRamMB host then false
  else true

/-- Function `VMConfig::validationError`. -/
def validationError (c : VMConfig) (host : Host) : String :=
  if c.m_name.isEmpty then "Instance name is required"
  else if !host.fileExists c.m_imagePath then "Android image not found: " ++ c.m_imagePath
  else if c.m_cpuCores < 1 then "At least 1 CPU core required"
  else if c.m_ramMB < 512 then "At least 512MB RAM required"
  else ""

end VMConfig

/-! ## The system checker (`src/utils/system_checker.cpp`) -/

/-- The structure `SystemChecker::SystemInfo`. -/
structure SystemInfo where
  kvmAvailable : Bool
  kvmAccessible : Bool
  qemuInstalled : Bool
  cpuCores : Int
  totalRamMB : Int
  availableRamMB : Int
  diskSpaceGB : Int
  virtualizationEnabled : Bool
  cpuModel : String
  errorMessage : String

namespace SystemChecker

/-- Constant `SystemChecker::MIN_RAM_MB`. -/
def MIN_RAM_MB : Int := 4096

/-- Constant `SystemChecker::MIN_DISK_GB`. -/
def MIN_DISK_GB : Int := 20

/-- Constant `SystemChecker::MIN_CPU_CORES`. -/
def MIN_CPU_CORES : Int := 2

/-- Function `SystemChecker::meetsMinimumRequirements`. -/
def meetsMinimumRequirements (info : SystemInfo) : Bool :=
  decide (info.cpuCores ≥ MIN_CPU_CORES) && decide (info.totalRamMB ≥ MIN_RAM_MB) &&
    decide (info.diskSpaceGB ≥ MIN_DISK_GB) && info.qemuInstalled

/-- The warning of `getWarnings` for a missing QEMU. -/
def qemuWarning : String :=
  "QEMU is not installed. Please install qemu-system-x86."

/-- The warning of `getWarnings` for missing KVM or virtualization. -/
def kvmWarning : String :=
  "KVM virtualization is not available. Enable virtualization in BIOS for better performance."

/-- The warning of `getWarnings` for too little RAM. -/
def ramWarning (info : SystemInfo) : String :=
  "Insufficient RAM: " ++ toString info.totalRamMB ++ " MB available, " ++
    toString MIN_RAM_MB ++ " MB required."

/-- The warning of `getWarnings` for too few CPU cores. -/
def cpuWarning (info : SystemInfo) : String :=
  "Insufficient CPU cores: " ++ toString info.cpuCores ++ " available, " ++
    toString MIN_CPU_CORES ++ " required."

/-- The warning of `getWarnings` for too little disk space. -/
def diskWarning (info : SystemInfo) : String :=
  "Insufficient disk space: " ++ toString info.diskSpaceGB ++ " GB available, " ++
    toString MIN_DISK_GB ++ " GB required."

/-- Function `SystemChecker::getWarnings`. -/
def getWarnings (info : SystemInfo) : List String :=
  let w0 : List String := []
  let w1 := if !info.qemuInstalled then w0 ++ [qemuWarning] else w0
  let w2 := if !info.kvmAvailable || !info.virtualizationEnabled then w1 ++ [kvmWarning] else w1
  let w3 := if info.totalRamMB < MIN_RAM_MB then w2 ++ [ramWarning info] else w2
  let w4 := if info.cpuCores < MIN_CPU_CORES then w3 ++ [cpuWarning info] else w3
  let w5 := if info.diskSpaceGB < MIN_DISK_GB then w4 ++ [diskWarning info] else w4
  w5

end SystemChecker

/-- Number of `downloadError` signals emitted so far. -/
def errorCount (w : DownloadManager) : Nat :=
  w.emitted.countP Signal.isDownloadError

/-! ## Machine-integer lemmas -/

theorem wrap64_of_range (x : Int) (h1 : -9223372036854775808 ≤ x)
    (h2 : x < 9223372036854775808) : wrap64 x = x := by
  unfold wrap64; omega

theorem toInt32_of_range (x : Int) (h1 : -2147483648 ≤ x) (h2 : x < 2147483648) :
    toInt32 x = x := by
  unfold toInt32; omega

/-! ## Starting a transfer -/

theorem fs_size_of_missing (fs : FileSystem) (p : String) (h : fs.exists p = false) :
    fs.size p = 0 := by
  unfold FileSystem.exists at h
  unfold FileSystem.size
  cases hf : fs.files p with
  | none => simp
  | some c => simp [hf] at h

/-- What an accepted `startDownload` whose partial file opens leaves behind. -/
theorem startDownload_accepted (w : DownloadManager) (url destination : String)
    (hidle : w.m_isDownloading = false)
    (hopen : w.fs.unwritable (destination ++ ".part") = false) :
    (startDownload w url destination).m_isDownloading = true ∧
    (startDownload w url destination).m_reply.isSome = true ∧
    (startDownload w url destination).m_retryCount = 0 ∧
    (startDownload w url destination).fs.unwritable = w.fs.unwritable ∧
    (startDownload w url destination).m_destination = destination ∧
    (startDownload w url destination).m_url = url ∧
    (startDownload w url destination).emitted = w.emitted ∧
    (startDownload w url destination).pendingRetries = w.pendingRetries ∧
    (startDownload w url destination).sent.length = w.sent.length + 1 ∧
    (startDownload w url destination).m_bytesReceived = w.fs.size (destination ++ ".part") ∧
    (startDownload w url destination).m_totalBytes = 0 ∧
    (startDownload w url destination).m_previousBytes = 0 ∧
    (startDownload w url destination).m_file = some (destination ++ ".part") ∧
    (startDownload w url destination).speedTimerActive = true := by
  by_cases hex : w.fs.exists (destination ++ ".part") = true
  · simp [startDownload, hidle, FileSystem.openAppend, hopen, hex]
  · have hex2 : w.fs.exists (destination ++ ".part") = false := by simpa using hex
    have h0 := fs_size_of_missing _ _ hex2
    simp [startDownload, hidle, FileSystem.openAppend, hopen, hex2, h0]

/-! ## The retry loop -/

/-- One round of the retry loop from a running session whose partial file can
be reopened: the failure counts one retry and schedules it, the retry restarts
the transfer through `startDownload`, which puts `m_retryCount` back to `0`. -/
theorem retryRound_running (s : DownloadManager) (data : QByteArray)
    (hreply : s.m_reply.isSome = true)
    (hcount : s.m_retryCount = 0)
    (hopen : s.fs.unwritable (s.m_destination ++ ".part") = false) :
    (retryRound s data).m_isDownloading = true ∧
    (retryRound s data).m_reply.isSome = true ∧
    (retryRound s data).m_retryCount = 0 ∧
    (retryRound s data).fs.unwritable = s.fs.unwritable ∧
    (retryRound s data).m_destination = s.m_destination ∧
    (retryRound s data).emitted = s.emitted ∧
    (retryRound s data).pendingRetries = s.pendingRetries ∧
    (retryRound s data).sent.length = s.sent.length + 1 := by
  have hround : retryRound s data =
      startDownload
        { s with speedTimerActive := false, m_isDownloading := false, m_file := none,
                 m_retryCount := 1, pendingRetries := s.pendingRetries,
                 m_reply := none } s.m_url s.m_destination := by
    simp [retryRound, step, hreply, onFinished, hcount, MAX_RETRIES, resumeDownload]
  have h := startDownload_accepted
      { s with speedTimerActive := false, m_isDownloading := false, m_file := none,
               m_retryCount := 1, pendingRetries := s.pendingRetries,
               m_reply := none } s.m_url s.m_destination rfl hopen
  rw [hround]
  obtain ⟨h1, h2, h3, h4, h5, -, h7, h8, h9, -⟩ := h
  exact ⟨h1, h2, h3, h4, h5, h7, h8, h9⟩

/-- Any number of rounds of the retry loop leaves the manager as one round does. -/
theorem retryRounds_running (ds : List QByteArray) (s : DownloadManager)
    (hrun : s.m_isDownloading = true) (hreply : s.m_reply.isSome = true)
    (hcount : s.m_retryCount = 0)
    (hopen : s.fs.unwritable (s.m_destination ++ ".part") = false) :
    (retryRounds s ds).m_isDownloading = true ∧
    (retryRounds s ds).m_reply.isSome = true ∧
    (retryRounds s ds).m_retryCount = 0 ∧
    (retryRounds s ds).fs.unwritable = s.fs.unwritable ∧
    (retryRounds s ds).m_destination = s.m_destination ∧
    (retryRounds s ds).emitted = s.emitted ∧
    (retryRounds s ds).pendingRetries = s.pendingRetries ∧
    (retryRounds s ds).sent.length = s.sent.length + ds.length := by
  induction ds generalizing s with
  | nil => simp [retryRounds, hrun, hreply, hcount]
  | cons d ds ih =>
    obtain ⟨h1, h2, h3, h4, h5, h6, h7, h8⟩ := retryRound_running s d hreply hcount hopen
    have hopen2 : (retryRound s d).fs.unwritable ((retryRound s d).m_destination ++ ".part")
        = false := by rw [h4, h5]; exact hopen
    obtain ⟨k1, k2, k3, k4, k5, k6, k7, k8⟩ := ih (retryRound s d) h1 h2 h3 hopen2
    have hcons : retryRounds s (d :: ds) = retryRounds (retryRound s d) ds := rfl
    rw [hcons]
    refine ⟨k1, k2, k3, ?_, ?_, ?_, ?_, ?_⟩
    · rw [k4, h4]
    · rw [k5, h5]
    · rw [k6, h6]
    · rw [k7, h7]
    · rw [k8, h8, List.length_cons]; omega

/-- C1 (retry cap), as the code behaves: when every session of a job ends with
a transport error and every scheduled retry fires, the restart performed by
each retry resets `m_retryCount`, so after any number of retries (three
included) the manager is downloading again with `m_retryCount = 0`, one request
was sent per retry, no `downloadError` was emitted, and the next failure
emits no `downloadError` either and schedules one more retry. -/
theorem retry_cap_never_reached (w : DownloadManager) (url destination : String)
    (ds : List QByteArray) (data : QByteArray)
    (hidle : w.m_isDownloading = false)
    (hopen : w.fs.unwritable (destination ++ ".part") = false) :
    (retryRounds (startDownload w url destination) ds).m_isDownloading = true ∧
    (retryRounds (startDownload w url destination) ds).m_retryCount = 0 ∧
    (retryRounds (startDownload w url destination) ds).sent.length
      = w.sent.length + 1 + ds.length ∧
    errorCount (retryRounds (startDownload w url destination) ds) = errorCount w ∧
    (retryRounds (startDownload w url destination) ds).pendingRetries = w.pendingRetries ∧
    errorCount (step (retryRounds (startDownload w url destination) ds) (.finished true data))
      = errorCount w ∧
    (step (retryRounds (startDownload w url destination) ds) (.finished true data)).m_retryCount
      = 1 ∧
    (step (retryRounds (startDownload w url destination) ds) (.finished true data)).pendingRetries
      = w.pendingRetries + 1 := by
  obtain ⟨h1, h2, h3, h4, h5, -, h7, h8, h9, -⟩ :=
    startDownload_accepted w url destination hidle hopen
  have hopen2 : (startDownload w url destination).fs.unwritable
      ((startDownload w url destination).m_destination ++ ".part") = false := by
    rw [h4, h5]; exact hopen
  obtain ⟨k1, k2, k3, -, -, k6, k7, k8⟩ :=
    retryRounds_running ds (startDownload w url destination) h1 h2 h3 hopen2
  refine ⟨k1, k3, ?_, ?_, ?_, ?_, ?_, ?_⟩
  · rw [k8, h9]
  · unfold errorCount; rw [k6, h7]
  · rw [k7, h8]
  · unfold errorCount
    simp [step, k2, onFinished, k3, MAX_RETRIES, k6, h7]
  · simp [step, k2, onFinished, k3, MAX_RETRIES]
  · simp [step, k2, onFinished, k3, MAX_RETRIES, k7, h8]

/-- Instance of `retry_cap_never_reached`: a fresh manager on an empty file
system, three failed retries and a fourth failure. -/
theorem retry_cap_never_reached_witness :
    errorCount (step (retryRounds (startDownload (DownloadManager.new FileSystem.empty)
        "http://host/image.img" "/tmp/image.img") [[], [], []]) (.finished true [])) = 0 ∧
    (step (retryRounds (startDownload (DownloadManager.new FileSystem.empty)
        "http://host/image.img" "/tmp/image.img") [[], [], []])
        (.finished true [])).pendingRetries = 1 :=
  have h := retry_cap_never_reached (DownloadManager.new FileSystem.empty)
    "http://host/image.img" "/tmp/image.img" [[], [], []] [] rfl rfl
  ⟨h.2.2.2.2.2.1, h.2.2.2.2.2.2.2⟩

/-! ## Resuming by byte range -/

/-- C2 (resume by byte range): an accepted `startDownload` whose partial file
opens seeds `m_bytesReceived` with the size `P` of `destination + ".part"` and
sends a request with the header `Range: bytes=P-` (`P` in decimal) when that
file exists with `P > 0`; when the file is missing or empty it sets
`m_bytesReceived` to `0` and sends a request without a `Range` header. -/
theorem startDownload_range_header (w : DownloadManager) (url destination : String)
    (hidle : w.m_isDownloading = false)
    (hopen : w.fs.unwritable (destination ++ ".part") = false) :
    (∀ content : QByteArray, w.fs.files (destination ++ ".part") = some content →
      0 < content.length →
      (startDownload w url destination).m_bytesReceived = (content.length : Int) ∧
      (startDownload w url destination).m_reply
        = some { request := downloadRequest url content.length, aborted := false } ∧
      (startDownload w url destination).sent
        = w.sent ++ [downloadRequest url content.length] ∧
      (downloadRequest url content.length).url = url ∧
      (downloadRequest url content.length).rawHeader "Range"
        = some ("bytes=" ++ Nat.repr content.length ++ "-")) ∧
    ((w.fs.files (destination ++ ".part") = none ∨
        w.fs.files (destination ++ ".part") = some []) →
      (startDownload w url destination).m_bytesReceived = 0 ∧
      (startDownload w url destination).m_reply
        = some { request := downloadRequest url 0, aborted := false } ∧
      (startDownload w url destination).sent = w.sent ++ [downloadRequest url 0] ∧
      (downloadRequest url 0).url = url ∧
      (downloadRequest url 0).rawHeader "Range" = none) := by
  constructor
  · intro content hfile hpos
    have hex : w.fs.exists (destination ++ ".part") = true := by
      simp [FileSystem.exists, hfile]
    have hsize : w.fs.size (destination ++ ".part") = (content.length : Int) := by
      simp [FileSystem.size, hfile]
    have hpos2 : (0 : Int) < (content.length : Int) := by exact_mod_cast hpos
    have hrepr : toString ((content.length : Nat) : Int) = Nat.repr content.length := rfl
    refine ⟨?_, ?_, ?_, ?_, ?_⟩
    · simp [startDownload, hidle, FileSystem.openAppend, hopen, hex, hsize]
    · simp [startDownload, hidle, FileSystem.openAppend, hopen, hex, hsize]
    · simp [startDownload, hidle, FileSystem.openAppend, hopen, hex, hsize]
    · simp [downloadRequest, QNetworkRequest.setRawHeader, hpos2]
    · simp [downloadRequest, QNetworkRequest.setRawHeader, QNetworkRequest.rawHeader,
        List.lookup, hrepr, hpos2]
  · intro hfile
    have hsize : w.fs.size (destination ++ ".part") = 0 := by
      rcases hfile with h | h <;> simp [FileSystem.size, h]
    have hrec : (if w.fs.exists (destination ++ ".part") = true
        then w.fs.size (destination ++ ".part") else 0) = 0 := by
      split <;> simp [hsize]
    refine ⟨?_, ?_, ?_, ?_, ?_⟩
    · simp [startDownload, hidle, FileSystem.openAppend, hopen, hrec]
    · simp [startDownload, hidle, FileSystem.openAppend, hopen, hrec]
    · simp [startDownload, hidle, FileSystem.openAppend, hopen, hrec]
    · simp [downloadRequest, QNetworkRequest.setRawHeader]
    · simp [downloadRequest, QNetworkRequest.setRawHeader, QNetworkRequest.rawHeader,
        List.lookup]

/-- Instance of `startDownload_range_header`: a partial file of three bytes
gives `m_bytesReceived = 3` and the header `Range: bytes=3-`. -/
theorem startDownload_range_header_witness :
    (startDownload (DownloadManager.new (FileSystem.single "/tmp/image.img.part" [7, 7, 7]))
      "http://host/image.img" "/tmp/image.img").m_bytesReceived = 3 ∧
    (downloadRequest "http://host/image.img" 3).rawHeader "Range" = some "bytes=3-" :=
  have h := (startDownload_range_header
    (DownloadManager.new (FileSystem.single "/tmp/image.img.part" [7, 7, 7]))
    "http://host/image.img" "/tmp/image.img" rfl rfl).1 [7, 7, 7] (by decide) (by decide)
  ⟨h.1, h.2.2.2.2⟩

/-! ## Progress events -/

theorem step_progress_fields (s : DownloadManager) (b t : Int)
    (hreply : s.m_reply.isSome = true) :
    (step s (.progress b t)).m_reply = s.m_reply ∧
    (step s (.progress b t)).m_bytesReceived = wrap64 (s.m_bytesReceived + b) ∧
    (step s (.progress b t)).m_previousBytes = s.m_previousBytes ∧
    (step s (.progress b t)).speedTimerActive = s.speedTimerActive := by
  simp [step, hreply, onDownloadProgress, emit]

theorem chunkSum_nonneg (chunks : List (Int × Int)) (h : ∀ c ∈ chunks, 0 ≤ c.1) :
    0 ≤ chunkSum chunks := by
  induction chunks with
  | nil => simp [chunkSum]
  | cons c cs ih =>
    have h1 : 0 ≤ c.1 := h c (List.mem_cons_self _ _)
    have h2 : 0 ≤ chunkSum cs := ih (fun x hx => h x (List.mem_cons_of_mem _ hx))
    have h3 : chunkSum (c :: cs) = c.1 + chunkSum cs := by simp [chunkSum]
    omega

/-- A run of progress events with non-negative chunk sizes adds the chunk
sizes to `m_bytesReceived`, as long as the sum stays in the `qint64` range. -/
theorem run_progress_bytesReceived (chunks : List (Int × Int)) (s : DownloadManager)
    (hreply : s.m_reply.isSome = true)
    (hs : 0 ≤ s.m_bytesReceived)
    (hchunks : ∀ c ∈ chunks, 0 ≤ c.1)
    (hrange : s.m_bytesReceived + chunkSum chunks < 9223372036854775808) :
    (run s (progressEvents chunks)).m_bytesReceived = s.m_bytesReceived + chunkSum chunks := by
  induction chunks generalizing s with
  | nil => simp [run, progressEvents, chunkSum]
  | cons c cs ih =>
    have h1 : 0 ≤ c.1 := hchunks c (List.mem_cons_self _ _)
    have hcs : ∀ x ∈ cs, 0 ≤ x.1 := fun x hx => hchunks x (List.mem_cons_of_mem _ hx)
    have h2 : 0 ≤ chunkSum cs := chunkSum_nonneg cs hcs
    have h3 : chunkSum (c :: cs) = c.1 + chunkSum cs := by simp [chunkSum]
    obtain ⟨k1, k2, -, -⟩ := step_progress_fields s c.1 c.2 hreply
    have hw : wrap64 (s.m_bytesReceived + c.1) = s.m_bytesReceived + c.1 :=
      wrap64_of_range _ (by omega) (by omega)
    have hrun : run s (progressEvents (c :: cs))
        = run (step s (.progress c.1 c.2)) (progressEvents cs) := rfl
    rw [hrun, ih (step s (.progress c.1 c.2)) (by rw [k1]; exact hreply)
      (by rw [k2, hw]; omega) hcs (by rw [k2, hw]; omega), k2, hw, h3]
    omega

/-- C3 (resume correctness): starting from a partial file of size `P` (any
size, `P > 0` included) and receiving progress events whose non-negative chunk sizes add up to `L - P`,
where `L` is a `qint64` content length, leaves `m_bytesReceived` equal to
`P` plus the chunk sizes, that is to `L`, however the bytes are split. -/
theorem resume_reaches_full_length (w : DownloadManager) (url destination : String)
    (content : QByteArray) (chunks : List (Int × Int)) (L : Int)
    (hidle : w.m_isDownloading = false)
    (hopen : w.fs.unwritable (destination ++ ".part") = false)
    (hfile : w.fs.files (destination ++ ".part") = some content)
    (hchunks : ∀ c ∈ chunks, 0 ≤ c.1)
    (hsum : chunkSum chunks = L - (content.length : Int))
    (hL : L < 9223372036854775808) :
    (startDownload w url destination).m_bytesReceived = (content.length : Int) ∧
    (run (startDownload w url destination) (progressEvents chunks)).m_bytesReceived
      = (content.length : Int) + chunkSum chunks ∧
    (run (startDownload w url destination) (progressEvents chunks)).m_bytesReceived = L := by
  obtain ⟨-, h2, -, -, -, -, -, -, -, h10, -⟩ :=
    startDownload_accepted w url destination hidle hopen
  have hsize : w.fs.size (destination ++ ".part") = (content.length : Int) := by
    simp [FileSystem.size, hfile]
  rw [hsize] at h10
  have hrun := run_progress_bytesReceived chunks (startDownload w url destination) h2
    (by rw [h10]; exact Int.ofNat_nonneg _) hchunks (by rw [h10, hsum]; omega)
  rw [h10] at hrun
  exact ⟨h10, hrun, by rw [hrun, hsum]; omega⟩

/-- Instance of `resume_reaches_full_length`: a partial file of three bytes
of a ten-byte resource, the seven missing bytes arriving as `4 + 0 + 3`. -/
theorem resume_reaches_full_length_witness :
    (run (startDownload (DownloadManager.new (FileSystem.single "/tmp/image.img.part" [7, 7, 7]))
      "http://host/image.img" "/tmp/image.img")
      (progressEvents [(4, 7), (0, 7), (3, 7)])).m_bytesReceived = 10 :=
  (resume_reaches_full_length
    (DownloadManager.new (FileSystem.single "/tmp/image.img.part" [7, 7, 7]))
    "http://host/image.img" "/tmp/image.img" [7, 7, 7] [(4, 7), (0, 7), (3, 7)] 10
    rfl rfl (by decide) (by decide) (by decide) (by decide)).2.2

/-! ## Monotonicity of `m_bytesReceived` -/

/-- After `startDownload` the counter is the size of the partial file, unless
the call is rejected because a download is running. -/
theorem startDownload_bytesReceived (w : DownloadManager) (url destination : String) :
    (startDownload w url destination).m_bytesReceived
      = if w.m_isDownloading then w.m_bytesReceived
        else w.fs.size (destination ++ ".part") := by
  cases hd : w.m_isDownloading with
  | true => simp [startDownload, hd, emit]
  | false =>
    have hrec : (if w.fs.exists (destination ++ ".part") = true
        then w.fs.size (destination ++ ".part") else 0)
        = w.fs.size (destination ++ ".part") := by
      by_cases hex : w.fs.exists (destination ++ ".part") = true
      · simp [hex]
      · have hex2 : w.fs.exists (destination ++ ".part") = false := by simpa using hex
        simp [hex2, fs_size_of_missing _ _ hex2]
    cases ho : w.fs.unwritable (destination ++ ".part") with
    | true => simp [startDownload, hd, FileSystem.openAppend, ho, emit, hrec]
    | false => simp [startDownload, hd, FileSystem.openAppend, ho, hrec]

/-- C4 (progress monotonicity), evaluated on the code: a fresh download of a
200-byte resource.  The reply delivers 60 bytes, then 40 bytes, each written
to the partial file before its `downloadProgress` signal, the signals carrying
the numbers of bytes received so far (60, then 100).  `m_bytesReceived` goes
`0, 0, 60, 60, 160`; the session then fails, and when the retry fires the
restart sets `m_bytesReceived` to the size of the partial file, `100`. -/
theorem bytesReceived_drops_at_retry :
    (run (DownloadManager.new FileSystem.empty)
      [.start "http://host/image.img" "/tmp/image.img",
       .readyRead (List.replicate 60 0), .progress 60 200]).m_bytesReceived = 60 ∧
    (run (DownloadManager.new FileSystem.empty)
      [.start "http://host/image.img" "/tmp/image.img",
       .readyRead (List.replicate 60 0), .progress 60 200,
       .readyRead (List.replicate 40 0), .progress 100 200]).m_bytesReceived = 160 ∧
    (run (DownloadManager.new FileSystem.empty)
      [.start "http://host/image.img" "/tmp/image.img",
       .readyRead (List.replicate 60 0), .progress 60 200,
       .readyRead (List.replicate 40 0), .progress 100 200,
       .finished true []]).m_bytesReceived = 160 ∧
    (run (DownloadManager.new FileSystem.empty)
      [.start "http://host/image.img" "/tmp/image.img",
       .readyRead (List.replicate 60 0), .progress 60 200,
       .readyRead (List.replicate 40 0), .progress 100 200,
       .finished true [], .retryFire]).m_bytesReceived = 100 ∧
    (run (DownloadManager.new FileSystem.empty)
      [.start "http://host/image.img" "/tmp/image.img",
       .readyRead (List.replicate 60 0), .progress 60 200,
       .readyRead (List.replicate 40 0), .progress 100 200,
       .finished true [], .retryFire]).fs.size "/tmp/image.img.part" = 100 ∧
    qtSessionEvents 200 0 [(List.replicate 60 0, true), (List.replicate 40 0, true)]
      = [.readyRead (List.replicate 60 0), .progress 60 200,
         .readyRead (List.replicate 40 0), .progress 100 200] := by
  refine ⟨by decide, by decide, by decide, by decide, by decide, rfl⟩

/-! ## Progress percentage -/

/-- C5 (percentage correctness) fails as stated: with `totalBytes = 100` and
`bytesReceived = 4294967296` the product `R * 100` is within the 64-bit range
and `floor (R * 100 / T)` is `4294967296`, but the conversion of the quotient
to `int` makes `progressPercentage` return `0`. -/
theorem progressPercentage_truncates_to_int :
    (4294967296 : Int) * 100 < 9223372036854775808 ∧
    (4294967296 : Int) * 100 / 100 = 4294967296 ∧
    progressPercentage { DownloadManager.new FileSystem.empty with
      m_bytesReceived := 4294967296, m_totalBytes := 100 } = 0 := by
  decide

/-- C5 (percentage correctness), amended: `progressPercentage` returns `0`
whenever `totalBytes = 0`; for `totalBytes = T > 0` and `bytesReceived = R ≥ 0`
with `R * 100` within the 64-bit range and `floor (R * 100 / T)` within the
range of `int` (as it is whenever `R ≤ T`), it returns `floor (R * 100 / T)`;
for `R = 512`, `T = 2048` it returns `25`. -/
theorem progressPercentage_floor (w : DownloadManager) :
    (w.m_totalBytes = 0 → progressPercentage w = 0) ∧
    (0 < w.m_totalBytes → 0 ≤ w.m_bytesReceived →
      w.m_bytesReceived * 100 < 9223372036854775808 →
      w.m_bytesReceived * 100 / w.m_totalBytes < 2147483648 →
      progressPercentage w = w.m_bytesReceived * 100 / w.m_totalBytes) ∧
    (0 < w.m_totalBytes → 0 ≤ w.m_bytesReceived →
      w.m_bytesReceived * 100 < 9223372036854775808 →
      w.m_bytesReceived ≤ w.m_totalBytes →
      progressPercentage w = w.m_bytesReceived * 100 / w.m_totalBytes) ∧
    (w.m_bytesReceived = 512 → w.m_totalBytes = 2048 → progressPercentage w = 25) := by
  have key : 0 < w.m_totalBytes → 0 ≤ w.m_bytesReceived →
      w.m_bytesReceived * 100 < 9223372036854775808 →
      w.m_bytesReceived * 100 / w.m_totalBytes < 2147483648 →
      progressPercentage w = w.m_bytesReceived * 100 / w.m_totalBytes := by
    intro hT hR h64 h32
    have hne : w.m_totalBytes ≠ 0 := by omega
    have hw : wrap64 (w.m_bytesReceived * 100) = w.m_bytesReceived * 100 :=
      wrap64_of_range _ (by omega) h64
    have hq : 0 ≤ w.m_bytesReceived * 100 / w.m_totalBytes :=
      Int.ediv_nonneg (by omega) (by omega)
    unfold progressPercentage
    rw [if_neg hne, hw, Int.tdiv_eq_ediv (by omega) (by omega)]
    exact toInt32_of_range _ (by omega) h32
  refine ⟨?_, key, ?_, ?_⟩
  · intro h0
    simp [progressPercentage, h0]
  · intro hT hR h64 hle
    apply key hT hR h64
    have h1 : w.m_bytesReceived * 100 / w.m_totalBytes ≤ 100 := by
      apply Int.ediv_le_of_le_mul hT
      nlinarith
    omega
  · intro hR hT
    have h := key (by omega) (by omega) (by omega) (by rw [hR, hT]; decide)
    rw [h, hR, hT]
    decide

/-- Instance of `progressPercentage_floor`: 512 bytes of 2048 give
`floor (51200 / 2048)`, which is 25. -/
theorem progressPercentage_floor_witness :
    progressPercentage { DownloadManager.new FileSystem.empty with
      m_bytesReceived := 512, m_totalBytes := 2048 } = 512 * 100 / 2048 ∧
    progressPercentage { DownloadManager.new FileSystem.empty with
      m_bytesReceived := 512, m_totalBytes := 2048 } = 25 :=
  ⟨(progressPercentage_floor { DownloadManager.new FileSystem.empty with
      m_bytesReceived := 512, m_totalBytes := 2048 }).2.1
      (by decide) (by decide) (by decide) (by decide),
   (progressPercentage_floor { DownloadManager.new FileSystem.empty with
      m_bytesReceived := 512, m_totalBytes := 2048 }).2.2.2 rfl rfl⟩

/-! ## The total size -/

/-- C6 (size invariant), evaluated on the code.  First run: a fresh start of a
100-byte resource and one progress event for a chunk of 60 bytes that is not
yet written to the partial file; the total becomes `100 + (0 - 60) = 40`, below
the 60 bytes counted.  Second run: the same resource delivered as 60 then 40
bytes, each written before its progress event, the events carrying the
session's running count (60, then 100); the counter reaches 160, above the
total of 100. -/
theorem size_invariant_violated :
    ((run (DownloadManager.new FileSystem.empty)
        [.start "http://host/image.img" "/tmp/image.img", .progress 60 100]).m_bytesReceived = 60 ∧
     (run (DownloadManager.new FileSystem.empty)
        [.start "http://host/image.img" "/tmp/image.img", .progress 60 100]).m_totalBytes = 40) ∧
    ((run (DownloadManager.new FileSystem.empty)
        [.start "http://host/image.img" "/tmp/image.img",
         .readyRead (List.replicate 60 0), .progress 60 100,
         .readyRead (List.replicate 40 0), .progress 100 100]).m_bytesReceived = 160 ∧
     (run (DownloadManager.new FileSystem.empty)
        [.start "http://host/image.img" "/tmp/image.img",
         .readyRead (List.replicate 60 0), .progress 60 100,
         .readyRead (List.replicate 40 0), .progress 100 100]).m_totalBytes = 100) := by
  decide

/-- The size of a file is never negative. -/
theorem fs_size_nonneg (fs : FileSystem) (p : String) : 0 ≤ fs.size p := by
  unfold FileSystem.size; exact Int.ofNat_nonneg _

/-- The partial file keeps its size when `startDownload` opens it. -/
theorem startDownload_size (w : DownloadManager) (url destination : String)
    (hidle : w.m_isDownloading = false)
    (hopen : w.fs.unwritable (destination ++ ".part") = false) :
    (startDownload w url destination).fs.size (destination ++ ".part")
      = w.fs.size (destination ++ ".part") := by
  simp [startDownload, hidle, FileSystem.openAppend, hopen, FileSystem.size]

/-- Writing a piece of data adds its length to the size of the file. -/
theorem fs_size_write (fs : FileSystem) (p : String) (data : QByteArray) :
    (fs.write p data).size p = fs.size p + (data.length : Int) := by
  simp [FileSystem.write, FileSystem.size]

/-- Along the signals of one session as `QNetworkReply` delivers them, on a
manager holding the session and the handle of a file that had `P` bytes when
the session began and holds `P + count` bytes now: the handle and the session
stay, the file grows by what is received, and `m_totalBytes` is `P + total`
from the first `downloadProgress` signal on, the value it had before that. -/
theorem run_qtSession (chunks : List (QByteArray × Bool)) (s : DownloadManager) (f : String)
    (P count total : Int)
    (hreply : s.m_reply.isSome = true) (hfile : s.m_file = some f)
    (hsize : s.fs.size f = P + count)
    (hP : 0 ≤ P) (htotal : 0 < total) (hrange : P + total < 9223372036854775808) :
    (run s (qtSessionEvents total count chunks)).m_reply.isSome = true ∧
    (run s (qtSessionEvents total count chunks)).m_file = some f ∧
    (run s (qtSessionEvents total count chunks)).fs.size f
      = P + count + ((chunks.map (fun c => c.1.length)).sum : Nat) ∧
    (run s (qtSessionEvents total count chunks)).m_totalBytes
      = if chunks.any (fun c => c.2) then P + total else s.m_totalBytes := by
  induction chunks generalizing s count with
  | nil => simp [qtSessionEvents, run, hreply, hfile, hsize]
  | cons c cs ih =>
    obtain ⟨data, reported⟩ := c
    have hw1 : wrap64 (P + (count + (data.length : Int)) - (count + (data.length : Int))) = P :=
      by
        have : P + (count + (data.length : Int)) - (count + (data.length : Int)) = P := by ring
        rw [this]
        exact wrap64_of_range _ (by omega) (by omega)
    have hw2 : wrap64 (total + P) = P + total := by
      rw [wrap64_of_range _ (by omega) (by omega)]
      ring
    cases reported with
    | false =>
      have hrun : run s (qtSessionEvents total count ((data, false) :: cs))
          = run (step s (.readyRead data))
              (qtSessionEvents total (count + (data.length : Int)) cs) := rfl
      have e1 : step s (.readyRead data) = { s with fs := s.fs.write f data } := by
        simp [step, hreply, onReadyRead, hfile]
      obtain ⟨i1, i2, i3, i4⟩ := ih (step s (.readyRead data)) (count + (data.length : Int))
        (by rw [e1]; exact hreply) (by rw [e1]; exact hfile)
        (by rw [e1]; show (s.fs.write f data).size f = _; rw [fs_size_write, hsize]; ring)
      rw [hrun]
      refine ⟨i1, i2, ?_, ?_⟩
      · rw [i3]
        simp only [List.map_cons, List.sum_cons]
        push_cast
        ring
      · rw [i4, e1]
        cases hany : cs.any (fun c => c.2) <;> simp [List.any_cons, hany]
    | true =>
      have hrun : run s (qtSessionEvents total count ((data, true) :: cs))
          = run (step (step s (.readyRead data))
                  (.progress (count + (data.length : Int)) total))
              (qtSessionEvents total (count + (data.length : Int)) cs) := rfl
      have e1 : step s (.readyRead data) = { s with fs := s.fs.write f data } := by
        simp [step, hreply, onReadyRead, hfile]
      have hsz : (s.fs.write f data).size f = P + (count + (data.length : Int)) := by
        rw [fs_size_write, hsize]
        ring
      have e2 : step (step s (.readyRead data)) (.progress (count + (data.length : Int)) total)
          = emit { s with fs := s.fs.write f data,
                          m_bytesReceived :=
                            wrap64 (s.m_bytesReceived + (count + (data.length : Int))),
                          m_totalBytes := P + total }
              (.downloadProgress (wrap64 (s.m_bytesReceived + (count + (data.length : Int))))
                (P + total)) := by
        rw [e1]
        simp only [step, hreply, if_true, onDownloadProgress, hfile, htotal, gt_iff_lt, hsz,
          hw1, hw2]
      obtain ⟨i1, i2, i3, i4⟩ := ih
        (step (step s (.readyRead data)) (.progress (count + (data.length : Int)) total))
        (count + (data.length : Int))
        (by rw [e2]; exact hreply) (by rw [e2]; exact hfile)
        (by rw [e2]; exact hsz)
      rw [hrun]
      refine ⟨i1, i2, ?_, ?_⟩
      · rw [i3]
        simp only [List.map_cons, List.sum_cons]
        push_cast
        ring
      · rw [i4, e2]
        simp [emit]

/-- Along the signals of one session that reports no positive content
length, `m_totalBytes` keeps its value. -/
theorem run_qtSession_unknown (chunks : List (QByteArray × Bool)) (s : DownloadManager)
    (count total : Int) (htotal : ¬ 0 < total) :
    (run s (qtSessionEvents total count chunks)).m_totalBytes = s.m_totalBytes := by
  induction chunks generalizing s count with
  | nil => rfl
  | cons c cs ih =>
    obtain ⟨data, reported⟩ := c
    have e1 : (step s (.readyRead data)).m_totalBytes = s.m_totalBytes := by
      cases hr : s.m_reply.isSome with
      | false => simp [step, hr]
      | true => cases hf : s.m_file <;> simp [step, hr, onReadyRead, hf]
    have e2 : ∀ (v : DownloadManager) (b : Int),
        (step v (.progress b total)).m_totalBytes = v.m_totalBytes := by
      intro v b
      cases hr : v.m_reply.isSome with
      | false => simp [step, hr]
      | true => simp [step, hr, onDownloadProgress, emit, htotal]
    cases reported with
    | false =>
      have hrun : run s (qtSessionEvents total count ((data, false) :: cs))
          = run (step s (.readyRead data))
              (qtSessionEvents total (count + (data.length : Int)) cs) := rfl
      rw [hrun, ih, e1]
    | true =>
      have hrun : run s (qtSessionEvents total count ((data, true) :: cs))
          = run (step (step s (.readyRead data))
                  (.progress (count + (data.length : Int)) total))
              (qtSessionEvents total (count + (data.length : Int)) cs) := rfl
      rw [hrun, ih, e2, e1]

/-- C7 (total reconstruction on resume): a session started on a partial file
holding `P` bytes (`P = 0` when there is none), whose reply delivers its
signals as `QNetworkReply` does (each piece of data written by `onReadyRead`
before the `downloadProgress` signal that counts it, that signal carrying the
number of bytes received so far in the session) and reports the content length
`T_rem > 0`: after every `downloadProgress` signal, `m_totalBytes` is
`P + T_rem`, given that this sum is within the `qint64` range. -/
theorem totalBytes_reconstructed_on_resume (w : DownloadManager) (url destination : String)
    (total : Int) (chunks : List (QByteArray × Bool)) (data : QByteArray)
    (hidle : w.m_isDownloading = false)
    (hopen : w.fs.unwritable (destination ++ ".part") = false)
    (htotal : 0 < total)
    (hrange : w.fs.size (destination ++ ".part") + total < 9223372036854775808) :
    (run (startDownload w url destination)
      (qtSessionEvents total 0 (chunks ++ [(data, true)]))).m_totalBytes
      = w.fs.size (destination ++ ".part") + total := by
  obtain ⟨-, h2, -, -, -, -, -, -, -, -, -, -, h3, -⟩ :=
    startDownload_accepted w url destination hidle hopen
  have h := (run_qtSession (chunks ++ [(data, true)]) (startDownload w url destination)
    (destination ++ ".part") (w.fs.size (destination ++ ".part")) 0 total h2 h3
    (by rw [startDownload_size w url destination hidle hopen]; ring)
    (fs_size_nonneg _ _) htotal hrange).2.2.2
  rw [h]
  simp

/-- Instance of `totalBytes_reconstructed_on_resume`: a partial file of 100
bytes of a 1000-byte resource, the server reporting the remaining 900; the
total is 1000 after the second of two pieces of 50 bytes. -/
theorem totalBytes_reconstructed_on_resume_witness :
    (run (startDownload
        (DownloadManager.new (FileSystem.single "/tmp/image.img.part" (List.replicate 100 0)))
        "http://host/image.img" "/tmp/image.img")
      [.readyRead (List.replicate 50 0), .progress 50 900,
       .readyRead (List.replicate 50 0), .progress 100 900]).m_totalBytes = 1000 :=
  totalBytes_reconstructed_on_resume
    (DownloadManager.new (FileSystem.single "/tmp/image.img.part" (List.replicate 100 0)))
    "http://host/image.img" "/tmp/image.img" 900 [(List.replicate 50 0, true)]
    (List.replicate 50 0) rfl rfl (by decide) (by decide)

/-! ## The speed sampler -/

theorem wrap64_eq_add_mul (x : Int) :
    ∃ k : Int, wrap64 x = x + k * 18446744073709551616 := by
  refine ⟨-((x + 9223372036854775808) / 18446744073709551616), ?_⟩
  unfold wrap64; omega

/-- Progress events leave the reply, the sampler's fields and the reported
speeds alone, and add the chunk sizes to the counter modulo `2 ^ 64`. -/
theorem run_progress_frame (chunks : List (Int × Int)) (s : DownloadManager)
    (hreply : s.m_reply.isSome = true) :
    (run s (progressEvents chunks)).m_reply = s.m_reply ∧
    (run s (progressEvents chunks)).m_previousBytes = s.m_previousBytes ∧
    (run s (progressEvents chunks)).speedTimerActive = s.speedTimerActive ∧
    reportedSpeeds (run s (progressEvents chunks)) = reportedSpeeds s ∧
    ∃ k : Int, (run s (progressEvents chunks)).m_bytesReceived
      = s.m_bytesReceived + chunkSum chunks + k * 18446744073709551616 := by
  induction chunks generalizing s with
  | nil => exact ⟨rfl, rfl, rfl, rfl, 0, by simp [run, progressEvents, chunkSum]⟩
  | cons c cs ih =>
    have hrun : run s (progressEvents (c :: cs))
        = run (step s (.progress c.1 c.2)) (progressEvents cs) := rfl
    obtain ⟨k1, k2, k3, k4⟩ := step_progress_fields s c.1 c.2 hreply
    have k5 : reportedSpeeds (step s (.progress c.1 c.2)) = reportedSpeeds s := by
      simp [reportedSpeeds, step, hreply, onDownloadProgress, emit, List.filterMap_append,
        Signal.speed?]
    obtain ⟨i1, i2, i3, i4, k, i5⟩ := ih (step s (.progress c.1 c.2)) (by rw [k1]; exact hreply)
    obtain ⟨j, hj⟩ := wrap64_eq_add_mul (s.m_bytesReceived + c.1)
    have hsum : chunkSum (c :: cs) = c.1 + chunkSum cs := by simp [chunkSum]
    rw [hrun]
    refine ⟨by rw [i1, k1], by rw [i2, k3], by rw [i3, k4], by rw [i4, k5], k + j, ?_⟩
    rw [i5, k2, hj, hsum]
    ring

/-- One sampling interval: the tick reports the bytes counted in the interval. -/
theorem sampleInterval_fields (s : DownloadManager) (chunks : List (Int × Int))
    (hreply : s.m_reply.isSome = true) (htimer : s.speedTimerActive = true)
    (hprev : s.m_previousBytes = s.m_bytesReceived)
    (hlow : -9007199254740992 ≤ chunkSum chunks)
    (hhigh : chunkSum chunks ≤ 9007199254740992) :
    (sampleInterval s chunks).m_reply.isSome = true ∧
    (sampleInterval s chunks).speedTimerActive = true ∧
    (sampleInterval s chunks).m_previousBytes = (sampleInterval s chunks).m_bytesReceived ∧
    (sampleInterval s chunks).m_downloadSpeed = chunkSum chunks ∧
    (sampleInterval s chunks).emitted.getLast?
      = some (.downloadSpeedUpdated (chunkSum chunks)) ∧
    reportedSpeeds (sampleInterval s chunks) = reportedSpeeds s ++ [chunkSum chunks] := by
  obtain ⟨h1, h2, h3, h4, k, h5⟩ := run_progress_frame chunks s hreply
  have hdiff : wrap64 ((run s (progressEvents chunks)).m_bytesReceived
      - (run s (progressEvents chunks)).m_previousBytes) = chunkSum chunks := by
    rw [h5, h2, hprev]
    unfold wrap64; omega
  have htimer2 : (run s (progressEvents chunks)).speedTimerActive = true := by
    rw [h3]; exact htimer
  refine ⟨?_, ?_, ?_, ?_, ?_, ?_⟩
  · simp [sampleInterval, step, htimer2, updateSpeed, calculateSpeed, emit, h1, hreply]
  · simp [sampleInterval, step, htimer2, updateSpeed, calculateSpeed, emit]
  · simp [sampleInterval, step, htimer2, updateSpeed, calculateSpeed, emit]
  · simp [sampleInterval, step, htimer2, updateSpeed, calculateSpeed, emit, hdiff]
  · simp [sampleInterval, step, htimer2, updateSpeed, calculateSpeed, emit, hdiff]
  · simp only [sampleInterval, step, htimer2, if_true, updateSpeed, calculateSpeed, emit,
      reportedSpeeds, List.filterMap_append, hdiff]
    have h4b : List.filterMap Signal.speed? (run s (progressEvents chunks)).emitted
        = List.filterMap Signal.speed? s.emitted := h4
    rw [h4b]
    simp [Signal.speed?]

/-- A sequence of sampling intervals: the reported speeds are the bytes
counted in each interval, in order. -/
theorem sampleIntervals_fields (intervals : List (List (Int × Int))) (s : DownloadManager)
    (hreply : s.m_reply.isSome = true) (htimer : s.speedTimerActive = true)
    (hprev : s.m_previousBytes = s.m_bytesReceived)
    (hrange : ∀ cs ∈ intervals,
      -9007199254740992 ≤ chunkSum cs ∧ chunkSum cs ≤ 9007199254740992) :
    (sampleIntervals s intervals).m_reply.isSome = true ∧
    (sampleIntervals s intervals).speedTimerActive = true ∧
    (sampleIntervals s intervals).m_previousBytes
      = (sampleIntervals s intervals).m_bytesReceived ∧
    reportedSpeeds (sampleIntervals s intervals)
      = reportedSpeeds s ++ intervals.map chunkSum := by
  induction intervals generalizing s with
  | nil => simp [sampleIntervals, hreply, htimer, hprev]
  | cons cs rest ih =>
    obtain ⟨hl, hh⟩ := hrange cs (List.mem_cons_self _ _)
    obtain ⟨h1, h2, h3, -, -, h6⟩ := sampleInterval_fields s cs hreply htimer hprev hl hh
    obtain ⟨i1, i2, i3, i4⟩ := ih (sampleInterval s cs) h1 h2 h3
      (fun x hx => hrange x (List.mem_cons_of_mem _ hx))
    have hcons : sampleIntervals s (cs :: rest) = sampleIntervals (sampleInterval s cs) rest :=
      rfl
    rw [hcons]
    refine ⟨i1, i2, i3, ?_⟩
    rw [i4, h6]
    simp

/-- C8 (speed sampling): from a running session whose sampler is in step
(`m_previousBytes = m_bytesReceived`), for every sequence of sampling
intervals, the bytes counted in interval `i` being `d_i` (a value a `double`
holds exactly), the reported speeds are `d_1, ..., d_n` in order, and the
`i`-th tick sets `m_downloadSpeed = d_i`, sets `m_previousBytes =
m_bytesReceived` and emits `downloadSpeedUpdated(d_i)`. -/
theorem speed_sampler_reports_deltas (w : DownloadManager)
    (intervals : List (List (Int × Int)))
    (hreply : w.m_reply.isSome = true) (htimer : w.speedTimerActive = true)
    (hprev : w.m_previousBytes = w.m_bytesReceived)
    (hrange : ∀ cs ∈ intervals,
      -9007199254740992 ≤ chunkSum cs ∧ chunkSum cs ≤ 9007199254740992) :
    reportedSpeeds (sampleIntervals w intervals)
      = reportedSpeeds w ++ intervals.map chunkSum ∧
    ∀ pre cs post, intervals = pre ++ cs :: post →
      (sampleIntervals w (pre ++ [cs])).m_downloadSpeed = chunkSum cs ∧
      (sampleIntervals w (pre ++ [cs])).m_previousBytes
        = (sampleIntervals w (pre ++ [cs])).m_bytesReceived ∧
      (sampleIntervals w (pre ++ [cs])).emitted.getLast?
        = some (.downloadSpeedUpdated (chunkSum cs)) := by
  refine ⟨(sampleIntervals_fields intervals w hreply htimer hprev hrange).2.2.2, ?_⟩
  intro pre cs post hsplit
  have hpre : ∀ x ∈ pre,
      -9007199254740992 ≤ chunkSum x ∧ chunkSum x ≤ 9007199254740992 := by
    intro x hx
    exact hrange x (by rw [hsplit]; exact List.mem_append_left _ hx)
  obtain ⟨hl, hh⟩ := hrange cs (by rw [hsplit]; simp)
  obtain ⟨i1, i2, i3, -⟩ := sampleIntervals_fields pre w hreply htimer hprev hpre
  obtain ⟨-, -, h3, h4, h5, -⟩ :=
    sampleInterval_fields (sampleIntervals w pre) cs i1 i2 i3 hl hh
  have happ : sampleIntervals w (pre ++ [cs]) = sampleInterval (sampleIntervals w pre) cs := by
    simp [sampleIntervals, List.foldl_append]
  rw [happ]
  exact ⟨h4, h3, h5⟩

/-- Instance of `speed_sampler_reports_deltas`: a fresh download receiving
1000 bytes, then 1500 + 500 bytes, then nothing, one tick after each; the
reported speeds are `[1000, 2000, 0]`. -/
theorem speed_sampler_reports_deltas_witness :
    reportedSpeeds (sampleIntervals
      (startDownload (DownloadManager.new FileSystem.empty)
        "http://host/image.img" "/tmp/image.img")
      [[(1000, 0)], [(1500, 0), (500, 0)], []]) = [1000, 2000, 0] :=
  (speed_sampler_reports_deltas
    (startDownload (DownloadManager.new FileSystem.empty)
      "http://host/image.img" "/tmp/image.img")
    [[(1000, 0)], [(1500, 0), (500, 0)], []] rfl rfl rfl (by decide)).1

/-! ## Estimated time remaining -/

theorem append_m_ne_marker (x : String) : x ++ "m" ≠ "Calculating..." := by
  intro h
  have h2 := congrArg (fun s : String => s.data.getLast?) h
  simp at h2

theorem append_s_ne_marker (x : String) : x ++ "s" ≠ "Calculating..." := by
  intro h
  have h2 := congrArg (fun s : String => s.data.getLast?) h
  simp at h2

theorem formatRemaining_ne_marker (s : Int) : formatRemaining s ≠ "Calculating..." := by
  unfold formatRemaining
  simp only []
  split
  · exact append_m_ne_marker _
  · split
    · exact append_s_ne_marker _
    · exact append_s_ne_marker _

/-- C9 (ETA unknown): `estimatedTimeRemaining` returns `"Calculating..."` if
and only if `m_downloadSpeed ≤ 0` or `m_totalBytes ≤ 0`; in particular it does
so whenever the speed is 0, as after a sampler tick in whose interval no byte
was counted. -/
theorem estimatedTimeRemaining_unknown_iff (w : DownloadManager) :
    (estimatedTimeRemaining w = some "Calculating..."
      ↔ (w.m_downloadSpeed ≤ 0 ∨ w.m_totalBytes ≤ 0)) ∧
    (w.m_downloadSpeed = 0 → estimatedTimeRemaining w = some "Calculating...") ∧
    (w.m_bytesReceived = w.m_previousBytes →
      (updateSpeed w).m_downloadSpeed = 0 ∧
      estimatedTimeRemaining (updateSpeed w) = some "Calculating...") := by
  have hiff : estimatedTimeRemaining w = some "Calculating..."
      ↔ (w.m_downloadSpeed ≤ 0 ∨ w.m_totalBytes ≤ 0) := by
    constructor
    · intro h
      by_contra hc
      unfold estimatedTimeRemaining at h
      rw [if_neg hc] at h
      cases hs : secondsRemaining w with
      | none => rw [hs] at h; simp at h
      | some s =>
        rw [hs] at h
        simp only [Option.map_some', Option.some.injEq] at h
        exact formatRemaining_ne_marker s h
    · intro h
      unfold estimatedTimeRemaining
      rw [if_pos h]
  refine ⟨hiff, ?_, ?_⟩
  · intro h0
    exact hiff.mpr (Or.inl (by omega))
  · intro heq
    have hz : (updateSpeed w).m_downloadSpeed = 0 := by
      simp [updateSpeed, calculateSpeed, emit, heq, wrap64]
    refine ⟨hz, ?_⟩
    unfold estimatedTimeRemaining
    rw [if_pos (Or.inl (by omega))]

/-- Instance of `estimatedTimeRemaining_unknown_iff`: a tick with no new byte
on a transfer of known total size. -/
theorem estimatedTimeRemaining_unknown_iff_witness :
    estimatedTimeRemaining (updateSpeed { DownloadManager.new FileSystem.empty with
      m_bytesReceived := 3000, m_previousBytes := 3000, m_totalBytes := 10000,
      m_downloadSpeed := 2000 }) = some "Calculating..." :=
  ((estimatedTimeRemaining_unknown_iff { DownloadManager.new FileSystem.empty with
      m_bytesReceived := 3000, m_previousBytes := 3000, m_totalBytes := 10000,
      m_downloadSpeed := 2000 }).2.2 rfl).2

theorem tdiv_nonpos_of_nonpos (s b : Int) (hs : s ≤ 0) (hb : 0 < b) : Int.tdiv s b ≤ 0 := by
  have h1 : Int.tdiv (-s) b = -(Int.tdiv s b) := Int.neg_tdiv s b
  have h2 : 0 ≤ Int.tdiv (-s) b := Int.tdiv_nonneg (by omega) (by omega)
  omega

theorem tmod_3600_nonpos_of_nonpos (s : Int) (hs : s ≤ 0) : Int.tmod s 3600 ≤ 0 := by
  have h1 : Int.tdiv (-s) 3600 = -(Int.tdiv s 3600) := Int.neg_tdiv s 3600
  have h2 : Int.tdiv (-s) 3600 = (-s) / 3600 := Int.tdiv_eq_ediv (by omega) (by decide)
  have h3 := Int.tmod_def s 3600
  omega

/-- C11 (ETA text format) fails as stated: 3900 seconds are rendered as
`1h 5m`, not `1:05`, and 75 seconds as `1m 15s`, not `1:15`. -/
theorem estimatedTimeRemaining_text_has_unit_letters :
    (estimatedTimeRemaining { DownloadManager.new FileSystem.empty with
        m_downloadSpeed := 1, m_totalBytes := 3900, m_bytesReceived := 0 } = some "1h 5m" ∧
      formatRemaining 3900 ≠ "1:05") ∧
    (estimatedTimeRemaining { DownloadManager.new FileSystem.empty with
        m_downloadSpeed := 1, m_totalBytes := 75, m_bytesReceived := 0 } = some "1m 15s" ∧
      formatRemaining 75 ≠ "1:15") := by
  decide

/-- C11 (ETA text format), amended: past its guard `estimatedTimeRemaining`
returns the text built from the `int` number of seconds `s`; for `s ≥ 3600` it
is the hours, `h`, a blank, the minutes and `m`; for `60 ≤ s < 3600` the
minutes, `m`, a blank, the seconds and `s`; for `s < 60` the seconds and `s`
(the seconds being `s` itself when `0 ≤ s`); numbers are in decimal without
padding. -/
theorem formatRemaining_text (w : DownloadManager) (s : Int)
    (hguard : ¬ (w.m_downloadSpeed ≤ 0 ∨ w.m_totalBytes ≤ 0))
    (hsec : secondsRemaining w = some s) :
    estimatedTimeRemaining w = some (formatRemaining s) ∧
    (3600 ≤ s → formatRemaining s
      = toString (s / 3600) ++ "h " ++ toString (s % 3600 / 60) ++ "m") ∧
    (60 ≤ s → s < 3600 → formatRemaining s
      = toString (s / 60) ++ "m " ++ toString (s % 60) ++ "s") ∧
    (s < 60 → formatRemaining s = toString (Int.tmod s 60) ++ "s") ∧
    (0 ≤ s → s < 60 → formatRemaining s = toString s ++ "s") := by
  refine ⟨?_, ?_, ?_, ?_, ?_⟩
  · unfold estimatedTimeRemaining
    rw [if_neg hguard, hsec]
    rfl
  · intro h
    have hh : Int.tdiv s 3600 = s / 3600 := Int.tdiv_eq_ediv (by omega) (by decide)
    have hm0 : Int.tmod s 3600 = s % 3600 := Int.tmod_eq_emod (by omega) (by decide)
    have hm : Int.tdiv (Int.tmod s 3600) 60 = s % 3600 / 60 := by
      rw [hm0]; exact Int.tdiv_eq_ediv (by omega) (by decide)
    have hpos : s / 3600 > 0 := by omega
    simp only [formatRemaining, hh, hm, if_pos hpos]
  · intro h1 h2
    have hh : Int.tdiv s 3600 = s / 3600 := Int.tdiv_eq_ediv (by omega) (by decide)
    have hm0 : Int.tmod s 3600 = s % 3600 := Int.tmod_eq_emod (by omega) (by decide)
    have hm : Int.tdiv (Int.tmod s 3600) 60 = s % 3600 / 60 := by
      rw [hm0]; exact Int.tdiv_eq_ediv (by omega) (by decide)
    have hsd : Int.tmod s 60 = s % 60 := Int.tmod_eq_emod (by omega) (by decide)
    have hn : ¬ (s / 3600 > 0) := by omega
    have hpos : s % 3600 / 60 > 0 := by omega
    have e1 : s % 3600 / 60 = s / 60 := by omega
    have hpos2 : s / 60 > 0 := by omega
    simp only [formatRemaining, hh, hm, hsd, if_neg hn, e1, if_pos hpos2]
  · intro h
    have hn : ¬ (Int.tdiv s 3600 > 0) := by
      by_cases h0 : 0 ≤ s
      · rw [Int.tdiv_eq_ediv h0 (by decide)]; omega
      · have := tdiv_nonpos_of_nonpos s 3600 (by omega) (by decide); omega
    have hn2 : ¬ (Int.tdiv (Int.tmod s 3600) 60 > 0) := by
      by_cases h0 : 0 ≤ s
      · rw [Int.tmod_eq_emod h0 (by decide), Int.tdiv_eq_ediv (by omega) (by decide)]; omega
      · have h1 := tmod_3600_nonpos_of_nonpos s (by omega)
        have := tdiv_nonpos_of_nonpos _ 60 h1 (by decide); omega
    simp only [formatRemaining, if_neg hn, if_neg hn2]
  · intro h0 h
    have hh : Int.tdiv s 3600 = s / 3600 := Int.tdiv_eq_ediv h0 (by decide)
    have hm0 : Int.tmod s 3600 = s % 3600 := Int.tmod_eq_emod h0 (by decide)
    have hm : Int.tdiv (Int.tmod s 3600) 60 = s % 3600 / 60 := by
      rw [hm0]; exact Int.tdiv_eq_ediv (by omega) (by decide)
    have hsd : Int.tmod s 60 = s % 60 := Int.tmod_eq_emod h0 (by decide)
    have hn : ¬ (s / 3600 > 0) := by omega
    have hn2 : ¬ (s % 3600 / 60 > 0) := by omega
    have e2 : s % 60 = s := by omega
    simp only [formatRemaining, hh, hm, hsd, if_neg hn, if_neg hn2, e2]

/-- Instance of `formatRemaining_text`: 75 bytes left at one byte per second. -/
theorem formatRemaining_text_witness :
    estimatedTimeRemaining { DownloadManager.new FileSystem.empty with
      m_downloadSpeed := 1, m_totalBytes := 75, m_bytesReceived := 0 }
      = some (formatRemaining 75) ∧
    formatRemaining 75 = "1m 15s" :=
  have h := formatRemaining_text { DownloadManager.new FileSystem.empty with
      m_downloadSpeed := 1, m_totalBytes := 75, m_bytesReceived := 0 } 75
    (by decide) (by decide)
  ⟨h.1, h.2.2.1 (by decide) (by decide)⟩

/-! ## Rejections and failures -/

/-- C12 (concurrent-start rejection): while a download is active,
`startDownload` emits the one error `"Download already in progress"` and
leaves every field of the manager and the file system as they were. -/
theorem startDownload_rejected_while_downloading (w : DownloadManager)
    (url destination : String) (hactive : w.m_isDownloading = true) :
    startDownload w url destination
      = { w with emitted := w.emitted ++ [.downloadError "Download already in progress"] } ∧
    errorCount (startDownload w url destination) = errorCount w + 1 ∧
    (startDownload w url destination).m_url = w.m_url ∧
    (startDownload w url destination).m_destination = w.m_destination ∧
    (startDownload w url destination).m_bytesReceived = w.m_bytesReceived ∧
    (startDownload w url destination).m_totalBytes = w.m_totalBytes ∧
    (startDownload w url destination).m_previousBytes = w.m_previousBytes ∧
    (startDownload w url destination).m_retryCount = w.m_retryCount ∧
    (startDownload w url destination).m_reply = w.m_reply ∧
    (startDownload w url destination).m_file = w.m_file ∧
    (startDownload w url destination).speedTimerActive = w.speedTimerActive ∧
    (startDownload w url destination).sent = w.sent := by
  have h : startDownload w url destination
      = { w with emitted := w.emitted ++ [.downloadError "Download already in progress"] } := by
    simp [startDownload, hactive, emit]
  refine ⟨h, ?_, ?_, ?_, ?_, ?_, ?_, ?_, ?_, ?_, ?_, ?_⟩ <;> rw [h]
  simp [errorCount, List.countP_append, Signal.isDownloadError]

/-- Instance of `startDownload_rejected_while_downloading`: a second start on
a manager that has just started a download. -/
theorem startDownload_rejected_while_downloading_witness :
    errorCount (startDownload (startDownload (DownloadManager.new FileSystem.empty)
      "http://host/image.img" "/tmp/image.img") "http://host/other.img" "/tmp/other.img") = 1 ∧
    (startDownload (startDownload (DownloadManager.new FileSystem.empty)
      "http://host/image.img" "/tmp/image.img") "http://host/other.img" "/tmp/other.img").m_url
      = "http://host/image.img" :=
  have h := startDownload_rejected_while_downloading
    (startDownload (DownloadManager.new FileSystem.empty)
      "http://host/image.img" "/tmp/image.img") "http://host/other.img" "/tmp/other.img" rfl
  ⟨h.2.1, h.2.2.1⟩

/-- C13 (transport-failure step): when a session ends with a transport error,
`onFinished` closes the partial file without touching the file system, stops
the sampling timer and leaves the manager not downloading; with
`m_retryCount < 3` it adds one to `m_retryCount`, schedules one retry and
emits nothing; with `m_retryCount = 3` it schedules nothing, keeps
`m_retryCount` and emits exactly one `downloadError`. -/
theorem onFinished_transport_failure (w : DownloadManager) (data : QByteArray)
    (hreply : w.m_reply.isSome = true) :
    (step w (.finished true data)).fs = w.fs ∧
    (step w (.finished true data)).m_file = none ∧
    (step w (.finished true data)).m_isDownloading = false ∧
    (step w (.finished true data)).speedTimerActive = false ∧
    (w.m_retryCount < 3 →
      (step w (.finished true data)).m_retryCount = w.m_retryCount + 1 ∧
      (step w (.finished true data)).pendingRetries = w.pendingRetries + 1 ∧
      (step w (.finished true data)).emitted = w.emitted) ∧
    (w.m_retryCount = 3 →
      (step w (.finished true data)).m_retryCount = 3 ∧
      (step w (.finished true data)).pendingRetries = w.pendingRetries ∧
      (step w (.finished true data)).emitted
        = w.emitted ++ [.downloadError "Download failed after 3 retries"] ∧
      errorCount (step w (.finished true data)) = errorCount w + 1) := by
  have hstep : step w (.finished true data) = onFinished w true data := by
    simp [step, hreply]
  rw [hstep]
  refine ⟨?_, ?_, ?_, ?_, ?_, ?_⟩
  · by_cases hc : w.m_retryCount < MAX_RETRIES <;> simp [onFinished, hc, emit]
  · by_cases hc : w.m_retryCount < MAX_RETRIES <;> simp [onFinished, hc, emit]
  · by_cases hc : w.m_retryCount < MAX_RETRIES <;> simp [onFinished, hc, emit]
  · by_cases hc : w.m_retryCount < MAX_RETRIES <;> simp [onFinished, hc, emit]
  · intro hc
    have hc2 : w.m_retryCount < MAX_RETRIES := hc
    simp [onFinished, hc2]
  · intro hc
    have hc2 : ¬ (w.m_retryCount < MAX_RETRIES) := by
      show ¬ (w.m_retryCount < 3)
      omega
    have hmsg : "Download failed after " ++ toString MAX_RETRIES ++ " retries"
        = "Download failed after 3 retries" := by decide
    have h3 : ¬ ((3 : Int) < MAX_RETRIES) := by decide
    simp [onFinished, h3, emit, hmsg, hc, errorCount, List.countP_append,
      Signal.isDownloadError]

/-- Instance of `onFinished_transport_failure`: a failure on a running
session whose `m_retryCount` is 3. -/
theorem onFinished_transport_failure_witness :
    (step { startDownload (DownloadManager.new FileSystem.empty)
        "http://host/image.img" "/tmp/image.img" with m_retryCount := 3 }
      (.finished true [])).emitted = [.downloadError "Download failed after 3 retries"] ∧
    (step { startDownload (DownloadManager.new FileSystem.empty)
        "http://host/image.img" "/tmp/image.img" with m_retryCount := 3 }
      (.finished true [])).pendingRetries = 0 :=
  have h := (onFinished_transport_failure
    { startDownload (DownloadManager.new FileSystem.empty)
        "http://host/image.img" "/tmp/image.img" with m_retryCount := 3 } [] rfl).2.2.2.2.2 rfl
  ⟨h.2.2.1, h.2.1⟩

/-- C14 (file-system error is fatal and never retried): when the partial file
cannot be opened, `startDownload` on a manager that is not downloading emits
exactly one `downloadError`, sends no request, schedules no retry, leaves
`m_retryCount` at 0, holds no file, does not start the sampling timer and
leaves the manager not downloading. -/
theorem startDownload_open_failure (w : DownloadManager) (url destination : String)
    (hidle : w.m_isDownloading = false)
    (hfail : w.fs.unwritable (destination ++ ".part") = true) :
    (startDownload w url destination).emitted
      = w.emitted ++ [.downloadError ("Cannot open file for writing: " ++ destination)] ∧
    errorCount (startDownload w url destination) = errorCount w + 1 ∧
    (startDownload w url destination).sent = w.sent ∧
    (startDownload w url destination).m_reply = w.m_reply ∧
    (startDownload w url destination).pendingRetries = w.pendingRetries ∧
    (startDownload w url destination).m_retryCount = 0 ∧
    (startDownload w url destination).m_file = none ∧
    (startDownload w url destination).speedTimerActive = w.speedTimerActive ∧
    (startDownload w url destination).m_isDownloading = false ∧
    (startDownload w url destination).fs = w.fs := by
  simp [startDownload, hidle, FileSystem.openAppend, hfail, emit, errorCount,
    List.countP_append, Signal.isDownloadError]

/-- Instance of `startDownload_open_failure`: a fresh manager on a file system
where no path can be opened for writing. -/
theorem startDownload_open_failure_witness :
    (startDownload (DownloadManager.new { FileSystem.empty with unwritable := fun _ => true })
      "http://host/image.img" "/tmp/image.img").emitted
      = [.downloadError "Cannot open file for writing: /tmp/image.img"] ∧
    (startDownload (DownloadManager.new { FileSystem.empty with unwritable := fun _ => true })
      "http://host/image.img" "/tmp/image.img").sent = [] :=
  have h := startDownload_open_failure
    (DownloadManager.new { FileSystem.empty with unwritable := fun _ => true })
    "http://host/image.img" "/tmp/image.img" rfl rfl
  ⟨h.1, h.2.2.1⟩

/-! ## Finalizing the file -/

theorem part_ne_destination (destination : String) : destination ++ ".part" ≠ destination := by
  intro h
  have h2 := congrArg String.length h
  have h5 : ".part".length = 5 := by decide
  simp [h5] at h2

/-- C15 (finalize): when a stream ends without transport error while the
partial file `m_destination + ".part"` is open, whatever was at
`m_destination` before, after `onFinished` the file at `m_destination` holds
the content of the partial file followed by the data still unread, no file is
left at `m_destination + ".part"`, every other path is as before, and
`downloadFinished(m_destination)` is emitted exactly once. -/
theorem onFinished_finalizes (w : DownloadManager) (data content : QByteArray)
    (hfile : w.m_file = some (w.m_destination ++ ".part"))
    (hpart : w.fs.files (w.m_destination ++ ".part") = some content) :
    (onFinished w false data).fs.files w.m_destination = some (content ++ data) ∧
    (onFinished w false data).fs.files (w.m_destination ++ ".part") = none ∧
    (∀ q, q ≠ w.m_destination → q ≠ w.m_destination ++ ".part" →
      (onFinished w false data).fs.files q = w.fs.files q) ∧
    (onFinished w false data).emitted
      = w.emitted ++ [.downloadFinished w.m_destination] ∧
    (onFinished w false data).emitted.countP Signal.isDownloadFinished
      = w.emitted.countP Signal.isDownloadFinished + 1 ∧
    (onFinished w false data).m_file = none ∧
    (onFinished w false data).m_isDownloading = false := by
  have hne := part_ne_destination w.m_destination
  have hne2 : w.m_destination ≠ w.m_destination ++ ".part" := fun h => hne h.symm
  have hfs : (onFinished w false data).fs
      = (((w.fs.write (w.m_destination ++ ".part") data).remove w.m_destination).rename
          (w.m_destination ++ ".part") w.m_destination) := by
    simp [onFinished, hfile, emit]
  have hsrc : ((w.fs.write (w.m_destination ++ ".part") data).remove w.m_destination).files
      (w.m_destination ++ ".part") = some (content ++ data) := by
    simp [FileSystem.write, FileSystem.remove, hne, hpart]
  have hdst : ((w.fs.write (w.m_destination ++ ".part") data).remove w.m_destination).files
      w.m_destination = none := by
    simp [FileSystem.remove]
  have hren : (((w.fs.write (w.m_destination ++ ".part") data).remove w.m_destination).rename
      (w.m_destination ++ ".part") w.m_destination).files
      = fun q => if q = w.m_destination then some (content ++ data)
          else if q = w.m_destination ++ ".part" then none
          else ((w.fs.write (w.m_destination ++ ".part") data).remove w.m_destination).files q := by
    unfold FileSystem.rename
    rw [hsrc, hdst]
  refine ⟨?_, ?_, ?_, ?_, ?_, ?_, ?_⟩
  · rw [hfs, hren]; simp
  · rw [hfs, hren]; simp [hne]
  · intro q h1 h2
    rw [hfs, hren]
    simp [h1, h2, FileSystem.write, FileSystem.remove]
  · simp [onFinished, hfile, emit]
  · simp [onFinished, hfile, emit, List.countP_append, Signal.isDownloadFinished]
  · simp [onFinished, hfile, emit]
  · simp [onFinished, hfile, emit]

/-- Instance of `onFinished_finalizes`: a partial file of two bytes, one byte
still unread, and an older file in place at the destination. -/
theorem onFinished_finalizes_witness :
    (onFinished { DownloadManager.new
        { files := fun q => if q = "/tmp/image.img.part" then some [1, 2]
            else if q = "/tmp/image.img" then some [9] else none,
          unwritable := fun _ => false } with
        m_destination := "/tmp/image.img", m_file := some "/tmp/image.img.part" }
      false [3]).fs.files "/tmp/image.img" = some [1, 2, 3] ∧
    (onFinished { DownloadManager.new
        { files := fun q => if q = "/tmp/image.img.part" then some [1, 2]
            else if q = "/tmp/image.img" then some [9] else none,
          unwritable := fun _ => false } with
        m_destination := "/tmp/image.img", m_file := some "/tmp/image.img.part" }
      false [3]).fs.files "/tmp/image.img.part" = none :=
  have h := onFinished_finalizes { DownloadManager.new
        { files := fun q => if q = "/tmp/image.img.part" then some [1, 2]
            else if q = "/tmp/image.img" then some [9] else none,
          unwritable := fun _ => false } with
        m_destination := "/tmp/image.img", m_file := some "/tmp/image.img.part" }
      [3] [1, 2] rfl (by decide)
  ⟨h.1, h.2.1⟩

/-! ## Verification after the transfer -/

theorem foldl_checksum_slot_expectedChecksum (l : List Signal) (acc : LinuxDroidDaemon) :
    (l.foldl (fun acc s =>
        match s with
        | .checksumVerified success => acc.onChecksumVerified success
        | _ => acc) acc).m_expectedChecksum = acc.m_expectedChecksum := by
  induction l generalizing acc with
  | nil => rfl
  | cons s l ih =>
    rw [List.foldl_cons, ih]
    cases s with
    | checksumVerified success =>
      cases success <;> simp [LinuxDroidDaemon.onChecksumVerified, LinuxDroidDaemon.log]
    | _ => rfl

theorem deliver_expectedChecksum (digestHex : QByteArray → String) (readOk : Bool)
    (d : LinuxDroidDaemon) (s : Signal) :
    (d.deliver digestHex readOk s).m_expectedChecksum = d.m_expectedChecksum := by
  cases s with
  | downloadProgress received total =>
    simp only [LinuxDroidDaemon.deliver, LinuxDroidDaemon.onDownloadProgress]
    split
    · split <;> simp [LinuxDroidDaemon.log]
    · rfl
  | downloadFinished filePath =>
    simp only [LinuxDroidDaemon.deliver, LinuxDroidDaemon.onDownloadFinished]
    split
    · rw [foldl_checksum_slot_expectedChecksum]
      simp [LinuxDroidDaemon.log]
    · simp [LinuxDroidDaemon.log]
  | downloadError error => simp [LinuxDroidDaemon.deliver, LinuxDroidDaemon.onDownloadError,
      LinuxDroidDaemon.log]
  | downloadSpeedUpdated v => rfl
  | checksumVerified success =>
    cases success <;>
      simp [LinuxDroidDaemon.deliver, LinuxDroidDaemon.onChecksumVerified, LinuxDroidDaemon.log]

theorem foldl_deliver_expectedChecksum (digestHex : QByteArray → String) (readOk : Bool)
    (l : List Signal) (d : LinuxDroidDaemon) :
    (l.foldl (LinuxDroidDaemon.deliver digestHex readOk) d).m_expectedChecksum
      = d.m_expectedChecksum := by
  induction l generalizing d with
  | nil => rfl
  | cons s l ih => rw [List.foldl_cons, ih, deliver_expectedChecksum]

/-- C16 (verification after transfer), as the code behaves: `onFinished`
emits `downloadFinished` and nothing else whatever `m_expectedChecksum` the
manager holds; the daemon, whose own `m_expectedChecksum` is empty and is
changed by no event, answers `downloadFinished` by quitting without calling
`verifyChecksum`, so no `checksumVerified` is emitted. -/
theorem finish_runs_no_verification (digestHex : QByteArray → String) (readOk : Bool)
    (d : LinuxDroidDaemon) (data : QByteArray)
    (hreply : d.m_downloadManager.m_reply.isSome = true)
    (hd : d.m_expectedChecksum = "") :
    (onFinished d.m_downloadManager false data).emitted
      = d.m_downloadManager.emitted
        ++ [.downloadFinished d.m_downloadManager.m_destination] ∧
    (d.handle digestHex readOk (.finished false data)).m_downloadManager
      = onFinished d.m_downloadManager false data ∧
    (d.handle digestHex readOk (.finished false data)).m_downloadManager.emitted.countP
        Signal.isChecksumVerified
      = d.m_downloadManager.emitted.countP Signal.isChecksumVerified ∧
    (d.handle digestHex readOk (.finished false data)).exits = d.exits ++ [0] ∧
    (∀ e, (d.handle digestHex readOk e).m_expectedChecksum = "") := by
  have hem : (onFinished d.m_downloadManager false data).emitted
      = d.m_downloadManager.emitted
        ++ [.downloadFinished d.m_downloadManager.m_destination] := by
    cases hf : d.m_downloadManager.m_file <;> simp [onFinished, hf, emit]
  have hstep : step d.m_downloadManager (.finished false data)
      = onFinished d.m_downloadManager false data := by
    simp [step, hreply]
  have hempty : (d.m_expectedChecksum.isEmpty) = true := by rw [hd]; decide
  have hhandle : d.handle digestHex readOk (.finished false data)
      = { (({ d with m_downloadManager := onFinished d.m_downloadManager false data }).log
            ("Download completed: " ++ d.m_downloadManager.m_destination)).log
            "Download finished successfully (no checksum verification)" with
          exits := d.exits ++ [0] } := by
    simp [LinuxDroidDaemon.handle, hstep, hem, LinuxDroidDaemon.deliver,
      LinuxDroidDaemon.onDownloadFinished, LinuxDroidDaemon.log, hempty]
  refine ⟨hem, ?_, ?_, ?_, ?_⟩
  · rw [hhandle]; simp [LinuxDroidDaemon.log]
  · rw [hhandle]
    simp [LinuxDroidDaemon.log, hem, List.countP_append, Signal.isChecksumVerified]
  · rw [hhandle]
  · intro e
    unfold LinuxDroidDaemon.handle
    rw [foldl_deliver_expectedChecksum]
    exact hd

/-- Instance of `finish_runs_no_verification`: the expected checksum is set on
the manager of a fresh daemon, a download starts and ends without error; the
only signal is `downloadFinished` and the daemon quits. -/
theorem finish_runs_no_verification_witness :
    (LinuxDroidDaemon.handle sha256Hex true
      { LinuxDroidDaemon.new FileSystem.empty true with
        m_downloadManager := startDownload
          (setExpectedChecksum (DownloadManager.new FileSystem.empty)
            "e3b0c44298fc1c149afbf4c8996fb92427ae41e4649b934ca495991b7852b855")
          "http://host/image.img" "/tmp/image.img" }
      (.finished false [])).m_downloadManager.emitted
      = [.downloadFinished "/tmp/image.img"] ∧
    (LinuxDroidDaemon.handle sha256Hex true
      { LinuxDroidDaemon.new FileSystem.empty true with
        m_downloadManager := startDownload
          (setExpectedChecksum (DownloadManager.new FileSystem.empty)
            "e3b0c44298fc1c149afbf4c8996fb92427ae41e4649b934ca495991b7852b855")
          "http://host/image.img" "/tmp/image.img" }
      (.finished false [])).exits = [0] :=
  have h := finish_runs_no_verification sha256Hex true
      { LinuxDroidDaemon.new FileSystem.empty true with
        m_downloadManager := startDownload
          (setExpectedChecksum (DownloadManager.new FileSystem.empty)
            "e3b0c44298fc1c149afbf4c8996fb92427ae41e4649b934ca495991b7852b855")
          "http://host/image.img" "/tmp/image.img" }
      [] rfl rfl
  ⟨h.2.1 ▸ h.1, h.2.2.2.1⟩

/-- C17 (vacuous verification): with an empty expected checksum,
`verifyChecksum` returns `true` and leaves the manager as it was, hence emits
nothing, whatever the destination, the file system, the digest and the
outcome of reading would be. -/
theorem verifyChecksum_vacuous (digestHex : QByteArray → String) (readOk : Bool)
    (w : DownloadManager) (hempty : w.m_expectedChecksum = "") :
    verifyChecksum digestHex readOk w = (true, w) ∧
    (verifyChecksum digestHex readOk w).1 = true ∧
    (verifyChecksum digestHex readOk w).2.emitted = w.emitted ∧
    (∀ fs destination,
      (verifyChecksum digestHex readOk
        { w with fs := fs, m_destination := destination }).1 = true) := by
  have he : ("" : String).isEmpty = true := by decide
  have h : verifyChecksum digestHex readOk w = (true, w) := by
    simp [verifyChecksum, hempty, he]
  refine ⟨h, by rw [h], by rw [h], ?_⟩
  intro fs destination
  simp [verifyChecksum, hempty, he]

/-- Instance of `verifyChecksum_vacuous`: a fresh manager, no file, reading
reported as failing. -/
theorem verifyChecksum_vacuous_witness :
    (verifyChecksum sha256Hex false (DownloadManager.new FileSystem.empty)).1 = true ∧
    (verifyChecksum sha256Hex false (DownloadManager.new FileSystem.empty)).2.emitted = [] :=
  have h := verifyChecksum_vacuous sha256Hex false (DownloadManager.new FileSystem.empty) rfl
  ⟨h.2.1, h.2.2.1⟩

/-! ## Comparing digests -/

theorem char_toLower_toUpper (c : Char) : c.toUpper.toLower = c.toLower := by
  by_cases h : 97 ≤ c.toNat ∧ c.toNat ≤ 122
  · have hc : c = Char.ofNat c.toNat := (Char.ofNat_toNat c).symm
    generalize c.toNat = n at h hc
    subst hc
    obtain ⟨h1, h2⟩ := h
    interval_cases n <;> decide
  · have hu : c.toUpper = c := by
      unfold Char.toUpper
      simp only [ge_iff_le]
      rw [if_neg h]
    rw [hu]

theorem char_toLower_toLower (c : Char) : c.toLower.toLower = c.toLower := by
  by_cases h : 65 ≤ c.toNat ∧ c.toNat ≤ 90
  · have hc : c = Char.ofNat c.toNat := (Char.ofNat_toNat c).symm
    generalize c.toNat = n at h hc
    subst hc
    obtain ⟨h1, h2⟩ := h
    interval_cases n <;> decide
  · have hl : c.toLower = c := by
      unfold Char.toLower
      simp only [ge_iff_le]
      rw [if_neg h]
    rw [hl, hl]

theorem sameUpToCase_toLower (a b : Char) (h : sameUpToCase a b) : b.toLower = a.toLower := by
  rcases h with h | h | h
  · rw [h]
  · rw [h]; exact char_toLower_toUpper a
  · rw [h]; exact char_toLower_toLower a

theorem map_toLower_of_sameUpToCase (l l' : List Char)
    (h : List.Forall₂ sameUpToCase l l') :
    l'.map Char.toLower = l.map Char.toLower := by
  induction h with
  | nil => rfl
  | cons hab _ ih =>
    simp only [List.map_cons]
    rw [sameUpToCase_toLower _ _ hab, ih]

theorem caseVariant_toLower (e e' : String) (h : caseVariant e e') :
    toLower e' = toLower e := by
  unfold toLower
  rw [map_toLower_of_sameUpToCase e.data e'.data h]

theorem caseVariant_ne_empty (e e' : String) (h : caseVariant e e') (hne : e ≠ "") :
    e' ≠ "" := by
  intro h0
  apply hne
  unfold caseVariant at h
  rw [h0] at h
  have hlen := h.length_eq
  have hd : e.data = [] := by
    cases hdata : e.data with
    | nil => rfl
    | cons a l => rw [hdata] at hlen; simp at hlen
  cases e
  simp_all

theorem isEmpty_eq_false_of_ne (s : String) (h : s ≠ "") : s.isEmpty = false := by
  cases hs : s.isEmpty with
  | false => rfl
  | true => exact absurd ((String.isEmpty_iff s).mp hs) h

/-- What `verifyChecksum` does on a readable file with a non-empty expected
checksum. -/
theorem verifyChecksum_readable (digestHex : QByteArray → String) (w : DownloadManager)
    (content : QByteArray) (hfile : w.fs.files w.m_destination = some content)
    (hne : w.m_expectedChecksum ≠ "") :
    verifyChecksum digestHex true w
      = (decide (toLower (digestHex content) = toLower w.m_expectedChecksum),
         emit w (.checksumVerified
           (decide (toLower (digestHex content) = toLower w.m_expectedChecksum)))) := by
  simp [verifyChecksum, isEmpty_eq_false_of_ne _ hne, hfile]

/-- C18 (case-insensitive comparison): on a readable destination file of
content `c` and with a non-empty expected string `e`, `verifyChecksum` returns
`true` if and only if the lower-cased digest of `c` equals the lower-cased
`e`, emits `checksumVerified` with the value it returns, and returns the same
value for every string obtained from `e` by changing the case of letters. -/
theorem verifyChecksum_case_insensitive (digestHex : QByteArray → String)
    (w : DownloadManager) (content : QByteArray)
    (hfile : w.fs.files w.m_destination = some content)
    (hne : w.m_expectedChecksum ≠ "") :
    ((verifyChecksum digestHex true w).1 = true
      ↔ toLower (digestHex content) = toLower w.m_expectedChecksum) ∧
    (verifyChecksum digestHex true w).2.emitted
      = w.emitted ++ [.checksumVerified (verifyChecksum digestHex true w).1] ∧
    (∀ e', caseVariant w.m_expectedChecksum e' →
      (verifyChecksum digestHex true (setExpectedChecksum w e')).1
        = (verifyChecksum digestHex true w).1) := by
  have h := verifyChecksum_readable digestHex w content hfile hne
  refine ⟨?_, ?_, ?_⟩
  · rw [h]; simp
  · rw [h]; simp [emit]
  · intro e' hvar
    have hne' : (setExpectedChecksum w e').m_expectedChecksum ≠ "" :=
      caseVariant_ne_empty _ _ hvar hne
    have h' := verifyChecksum_readable digestHex (setExpectedChecksum w e') content hfile hne'
    rw [h, h']
    have hl : toLower (setExpectedChecksum w e').m_expectedChecksum
        = toLower w.m_expectedChecksum := caseVariant_toLower _ _ hvar
    simp only [hl]

/-- Instance of `verifyChecksum_case_insensitive`: the empty file and its
SHA-256 digest written in upper case. -/
theorem verifyChecksum_case_insensitive_witness :
    (verifyChecksum sha256Hex true
      { DownloadManager.new (FileSystem.single "/tmp/image.img" []) with
        m_destination := "/tmp/image.img",
        m_expectedChecksum :=
          "E3B0C44298FC1C149AFBF4C8996FB92427AE41E4649B934CA495991B7852B855" }).1 = true :=
  (verifyChecksum_case_insensitive sha256Hex
      { DownloadManager.new (FileSystem.single "/tmp/image.img" []) with
        m_destination := "/tmp/image.img",
        m_expectedChecksum :=
          "E3B0C44298FC1C149AFBF4C8996FB92427AE41E4649B934CA495991B7852B855" }
      [] (by decide) (by decide)).1.mpr (by decide)

/-! ## Checksum round trip -/

theorem replaceChar_ne_empty (s : String) (i : Nat) (x : Char) (hi : i < s.data.length) :
    replaceChar s i x ≠ "" := by
  intro h
  have hlen : (replaceChar s i x).data.length = s.data.length := by simp [replaceChar]
  rw [h] at hlen
  have h0 : ("" : String).data.length = 0 := rfl
  omega

theorem toLower_replaceChar_ne (s : String) (i : Nat) (x : Char) (hi : i < s.data.length)
    (hx : x.toLower ≠ (s.data.get ⟨i, hi⟩).toLower) :
    toLower s ≠ toLower (replaceChar s i x) := by
  intro h
  have hl : s.data.map Char.toLower = (s.data.set i x).map Char.toLower := by
    have h2 := congrArg String.data h
    simpa [toLower, replaceChar] using h2
  have h4 : (s.data.map Char.toLower)[i]? = some ((s.data.get ⟨i, hi⟩).toLower) := by
    rw [List.getElem?_map, List.getElem?_eq_getElem hi]
    rfl
  have h5 : ((s.data.set i x).map Char.toLower)[i]? = some x.toLower := by
    rw [List.getElem?_map, List.getElem?_set_self hi]
    rfl
  rw [hl, h5] at h4
  exact hx (Option.some.inj h4)

/-- C19 (checksum round trip) fails as stated: the SHA-256 digest of the
empty file starts with `e`; replacing that character by the different
character `E` gives an expected string that differs from the digest, and
`verifyChecksum` still reports a match. -/
theorem case_flip_still_matches :
    (sha256Hex []).data.get? 0 = some 'e' ∧
    replaceChar (sha256Hex []) 0 'E' ≠ sha256Hex [] ∧
    (verifyChecksum sha256Hex true
      { DownloadManager.new (FileSystem.single "/tmp/image.img" []) with
        m_destination := "/tmp/image.img",
        m_expectedChecksum := replaceChar (sha256Hex []) 0 'E' }).1 = true := by
  decide

/-- C19 (checksum round trip), amended: on a readable file, with the expected
checksum set to the digest computed from that file `verifyChecksum` reports a
match; with the expected checksum obtained from that digest by replacing the
character at one position by a character that differs from it even after
lower-casing, `verifyChecksum` reports a mismatch. -/
theorem checksum_round_trip (digestHex : QByteArray → String) (w : DownloadManager)
    (content : QByteArray) (hfile : w.fs.files w.m_destination = some content) :
    (verifyChecksum digestHex true (setExpectedChecksum w (digestHex content))).1 = true ∧
    (digestHex content ≠ "" →
      (verifyChecksum digestHex true (setExpectedChecksum w (digestHex content))).2.emitted
        = w.emitted ++ [.checksumVerified true]) ∧
    (∀ (i : Nat) (x : Char) (hi : i < (digestHex content).data.length),
      x.toLower ≠ ((digestHex content).data.get ⟨i, hi⟩).toLower →
      (verifyChecksum digestHex true
        (setExpectedChecksum w (replaceChar (digestHex content) i x))).1 = false ∧
      (verifyChecksum digestHex true
        (setExpectedChecksum w (replaceChar (digestHex content) i x))).2.emitted
        = w.emitted ++ [.checksumVerified false]) := by
  refine ⟨?_, ?_, ?_⟩
  · by_cases hne : digestHex content = ""
    · have he : ("" : String).isEmpty = true := by decide
      simp [verifyChecksum, setExpectedChecksum, hne, he]
    · rw [verifyChecksum_readable digestHex (setExpectedChecksum w (digestHex content))
        content hfile hne]
      simp [setExpectedChecksum]
  · intro hne
    rw [verifyChecksum_readable digestHex (setExpectedChecksum w (digestHex content))
      content hfile hne]
    simp [setExpectedChecksum, emit]
  · intro i x hi hx
    have hne := replaceChar_ne_empty (digestHex content) i x hi
    have hlow := toLower_replaceChar_ne (digestHex content) i x hi hx
    rw [verifyChecksum_readable digestHex
      (setExpectedChecksum w (replaceChar (digestHex content) i x)) content hfile hne]
    simp [setExpectedChecksum, emit, hlow]

/-- Instance of `checksum_round_trip`: the empty file, its SHA-256 digest, and
the digest with its first character `e` replaced by `f`. -/
theorem checksum_round_trip_witness :
    (verifyChecksum sha256Hex true
      (setExpectedChecksum
        { DownloadManager.new (FileSystem.single "/tmp/image.img" []) with
          m_destination := "/tmp/image.img" }
        (sha256Hex []))).1 = true ∧
    (verifyChecksum sha256Hex true
      (setExpectedChecksum
        { DownloadManager.new (FileSystem.single "/tmp/image.img" []) with
          m_destination := "/tmp/image.img" }
        (replaceChar (sha256Hex []) 0 'f'))).1 = false :=
  have h := checksum_round_trip sha256Hex
    { DownloadManager.new (FileSystem.single "/tmp/image.img" []) with
      m_destination := "/tmp/image.img" } [] (by decide)
  ⟨h.1, (h.2.2 0 'f' (by decide) (by decide)).1⟩

/-! ## Pausing -/

/-- C20 (pause): from a downloading state `pauseDownload` marks the session
as aborted, leaves the file system, hence the partial file and its content,
as it was, stops the sampling timer, leaves the manager not downloading and
keeps the url, the destination and the expected checksum; all of this still
holds once the aborted session has reported its end with an error. -/
theorem pauseDownload_keeps_partial_file (w : DownloadManager) (data : QByteArray)
    (hactive : w.m_isDownloading = true) :
    ((pauseDownload w).m_reply = w.m_reply.map (fun r => { r with aborted := true }) ∧
      (pauseDownload w).fs = w.fs ∧
      (pauseDownload w).speedTimerActive = false ∧
      (pauseDownload w).m_isDownloading = false ∧
      (pauseDownload w).m_url = w.m_url ∧
      (pauseDownload w).m_destination = w.m_destination ∧
      (pauseDownload w).m_expectedChecksum = w.m_expectedChecksum ∧
      (pauseDownload w).emitted = w.emitted) ∧
    ((step (pauseDownload w) (.finished true data)).fs = w.fs ∧
      (step (pauseDownload w) (.finished true data)).speedTimerActive = false ∧
      (step (pauseDownload w) (.finished true data)).m_isDownloading = false ∧
      (step (pauseDownload w) (.finished true data)).m_url = w.m_url ∧
      (step (pauseDownload w) (.finished true data)).m_destination = w.m_destination ∧
      (step (pauseDownload w) (.finished true data)).m_expectedChecksum
        = w.m_expectedChecksum) := by
  have hp : pauseDownload w
      = { w with m_reply := w.m_reply.map (fun r => { r with aborted := true }),
                 m_isDownloading := false, speedTimerActive := false } := by
    simp [pauseDownload, hactive]
  refine ⟨by rw [hp]; simp, ?_⟩
  rw [hp]
  cases hr : w.m_reply with
  | none => simp [step]
  | some r =>
    by_cases hc : w.m_retryCount < MAX_RETRIES
    · simp [step, onFinished, hc]
    · simp [step, onFinished, hc, emit]

/-- Instance of `pauseDownload_keeps_partial_file`: pausing a download that
resumed from a partial file of three bytes. -/
theorem pauseDownload_keeps_partial_file_witness :
    (pauseDownload (startDownload
      (DownloadManager.new (FileSystem.single "/tmp/image.img.part" [7, 7, 7]))
      "http://host/image.img" "/tmp/image.img")).fs.files "/tmp/image.img.part"
      = some [7, 7, 7] ∧
    (pauseDownload (startDownload
      (DownloadManager.new (FileSystem.single "/tmp/image.img.part" [7, 7, 7]))
      "http://host/image.img" "/tmp/image.img")).m_isDownloading = false :=
  have h := (pauseDownload_keeps_partial_file (startDownload
      (DownloadManager.new (FileSystem.single "/tmp/image.img.part" [7, 7, 7]))
      "http://host/image.img" "/tmp/image.img") [] rfl).1
  ⟨h.2.1 ▸ (by decide), h.2.2.2.1⟩

/-! ## Cancelling -/

/-- On a manager holding a reply that has not finished, `cancelDownload` is
one run of the transport-failure branch of `onFinished`: the slot runs inside
`abort()` and leaves nothing for the rest of the function to do. -/
theorem cancelDownload_of_live (w : DownloadManager) (r : QNetworkReply)
    (hreply : w.m_reply = some r) (hlive : r.aborted = false) :
    cancelDownload w = onFinished w true [] := by
  by_cases hc : w.m_retryCount < MAX_RETRIES
  · simp [cancelDownload, hreply, abort, hlive, onFinished, hc]
  · simp [cancelDownload, hreply, abort, hlive, onFinished, hc, emit]

/-- On a manager holding no reply, or a reply aborted before, `cancelDownload`
runs no slot: it drops the reply, removes the file of the handle it holds, if
any, and clears the two flags. -/
theorem cancelDownload_of_quiet (w : DownloadManager)
    (hquiet : ∀ r, w.m_reply = some r → r.aborted = true) :
    cancelDownload w
      = { (match w.m_file with
            | some f => { w with fs := w.fs.remove f, m_file := none }
            | none => w) with
          m_reply := none, m_isDownloading := false, speedTimerActive := false } := by
  cases hr : w.m_reply with
  | none => cases hf : w.m_file <;> simp [cancelDownload, hr, hf]
  | some r =>
    have ha := hquiet r hr
    cases hf : w.m_file <;> simp [cancelDownload, hr, abort, ha, hf]

/-- On a manager with no reply, no handle and both flags cleared,
`cancelDownload` returns the state it was given. -/
theorem cancelDownload_of_cleared (v : DownloadManager)
    (hreply : v.m_reply = none) (hfile : v.m_file = none)
    (hdown : v.m_isDownloading = false) (htimer : v.speedTimerActive = false) :
    cancelDownload v = v := by
  cases v
  simp_all [cancelDownload]

/-- What `cancelDownload` does in every state: the flags, the reply and the
handle are cleared; the byte counters, the speed, the job's strings, the
requests sent, the writability of paths and the reported speeds are kept; no
pending retry is removed. -/
theorem cancelDownload_fields (w : DownloadManager) :
    (cancelDownload w).m_isDownloading = false ∧
    (cancelDownload w).m_reply = none ∧
    (cancelDownload w).m_file = none ∧
    (cancelDownload w).speedTimerActive = false ∧
    (cancelDownload w).m_bytesReceived = w.m_bytesReceived ∧
    (cancelDownload w).m_totalBytes = w.m_totalBytes ∧
    (cancelDownload w).m_previousBytes = w.m_previousBytes ∧
    (cancelDownload w).m_downloadSpeed = w.m_downloadSpeed ∧
    (cancelDownload w).m_url = w.m_url ∧
    (cancelDownload w).m_destination = w.m_destination ∧
    (cancelDownload w).m_expectedChecksum = w.m_expectedChecksum ∧
    (cancelDownload w).sent = w.sent ∧
    (cancelDownload w).fs.unwritable = w.fs.unwritable ∧
    w.pendingRetries ≤ (cancelDownload w).pendingRetries ∧
    reportedSpeeds (cancelDownload w) = reportedSpeeds w := by
  by_cases hlive : ∃ r, w.m_reply = some r ∧ r.aborted = false
  · obtain ⟨r, hr, ha⟩ := hlive
    rw [cancelDownload_of_live w r hr ha]
    by_cases hc : w.m_retryCount < MAX_RETRIES
    · simp [onFinished, hc, reportedSpeeds]
    · simp [onFinished, hc, emit, reportedSpeeds, List.filterMap_append, Signal.speed?]
  · have hquiet : ∀ r, w.m_reply = some r → r.aborted = true := by
      intro r hr
      cases ha : r.aborted with
      | true => rfl
      | false => exact absurd ⟨r, hr, ha⟩ hlive
    rw [cancelDownload_of_quiet w hquiet]
    cases hf : w.m_file <;> simp [hf, FileSystem.remove, reportedSpeeds]

/-- The source's `pauseDownload` on a downloading manager whose reply has not
finished, with the slot run inside `abort()`, is the model's `pauseDownload`
followed by the event `finished true`. -/
theorem pauseDownload_then_finished (w : DownloadManager) (r : QNetworkReply)
    (data : QByteArray)
    (hdown : w.m_isDownloading = true) (hreply : w.m_reply = some r)
    (hlive : r.aborted = false) :
    step (pauseDownload w) (.finished true data)
      = { abort w r with m_isDownloading := false, speedTimerActive := false } := by
  by_cases hc : w.m_retryCount < MAX_RETRIES
  · simp [step, pauseDownload, hdown, hreply, abort, hlive, onFinished, hc]
  · simp [step, pauseDownload, hdown, hreply, abort, hlive, onFinished, hc, emit]

/-- C22 (cancel is idempotent), as the code behaves: on a manager holding a
session that has not finished, the slot `onFinished` runs inside `abort()` and
sets `m_reply` to null, and `cancelDownload` then makes the call
`m_reply->deleteLater()` on that null pointer; below the retry cap the same
slot schedules a retry.  A second `cancelDownload` finds no session and no
handle: it makes no such call and returns the state it was given, so the
manager, the file system and the signals emitted are those of the first
call. -/
theorem cancelDownload_calls_null_reply (w : DownloadManager) (r : QNetworkReply)
    (hreply : w.m_reply = some r) (hlive : r.aborted = false) :
    cancelCallsNullReply w = true ∧
    (w.m_retryCount < MAX_RETRIES →
      (cancelDownload w).pendingRetries = w.pendingRetries + 1) ∧
    cancelCallsNullReply (cancelDownload w) = false ∧
    cancelDownload (cancelDownload w) = cancelDownload w ∧
    (cancelDownload (cancelDownload w)).fs = (cancelDownload w).fs ∧
    (cancelDownload (cancelDownload w)).emitted = (cancelDownload w).emitted := by
  obtain ⟨h1, h2, h3, h4, -⟩ := cancelDownload_fields w
  have hidem : cancelDownload (cancelDownload w) = cancelDownload w :=
    cancelDownload_of_cleared (cancelDownload w) h2 h3 h1 h4
  refine ⟨?_, ?_, ?_, hidem, by rw [hidem], by rw [hidem]⟩
  · by_cases hc : w.m_retryCount < MAX_RETRIES
    · simp [cancelCallsNullReply, hreply, abort, hlive, onFinished, hc]
    · simp [cancelCallsNullReply, hreply, abort, hlive, onFinished, hc, emit]
  · intro hc
    rw [cancelDownload_of_live w r hreply hlive]
    simp [onFinished, hc]
  · simp [cancelCallsNullReply, h2]

/-- Instance of `cancelDownload_calls_null_reply`: cancelling a download that
has just started. -/
theorem cancelDownload_calls_null_reply_witness :
    cancelCallsNullReply (startDownload (DownloadManager.new FileSystem.empty)
      "http://host/image.img" "/tmp/image.img") = true ∧
    (cancelDownload (startDownload (DownloadManager.new FileSystem.empty)
      "http://host/image.img" "/tmp/image.img")).pendingRetries = 1 :=
  have h := cancelDownload_calls_null_reply
    (startDownload (DownloadManager.new FileSystem.empty)
      "http://host/image.img" "/tmp/image.img")
    { request := downloadRequest "http://host/image.img" 0, aborted := false }
    (by decide) rfl
  ⟨h.1, h.2.1 (by decide)⟩

/-- C23 (guarded no-ops): on a manager that is not downloading
`pauseDownload` returns the state it was given; on a manager that is
downloading `resumeDownload` returns the state it was given, so nothing is
emitted and no request is sent. -/
theorem pause_resume_guarded (w : DownloadManager) :
    (w.m_isDownloading = false →
      pauseDownload w = w ∧ step w .pause = w) ∧
    (w.m_isDownloading = true →
      resumeDownload w = w ∧ step w .resume = w ∧
      (resumeDownload w).sent = w.sent ∧ (resumeDownload w).emitted = w.emitted) := by
  constructor
  · intro h
    simp [step, pauseDownload, h]
  · intro h
    simp [step, resumeDownload, h]

/-- Instance of `pause_resume_guarded`: pausing a fresh manager, resuming a
manager that has just started a download. -/
theorem pause_resume_guarded_witness :
    (pauseDownload (DownloadManager.new FileSystem.empty)).m_isDownloading = false ∧
    (resumeDownload (startDownload (DownloadManager.new FileSystem.empty)
      "http://host/image.img" "/tmp/image.img")).sent.length = 1 :=
  ⟨congrArg DownloadManager.m_isDownloading
      ((pause_resume_guarded (DownloadManager.new FileSystem.empty)).1 rfl).1,
   congrArg (fun s => s.sent.length)
      ((pause_resume_guarded (startDownload (DownloadManager.new FileSystem.empty)
        "http://host/image.img" "/tmp/image.img")).2 rfl).1⟩

/-! ## The retry counter -/

theorem startDownload_retryCount (w : DownloadManager) (url destination : String) :
    ((startDownload w url destination).m_retryCount = w.m_retryCount ∧
      (startDownload w url destination).m_reply = w.m_reply ∧
      restartTarget w (.start url destination) = none) ∨
    ((startDownload w url destination).m_retryCount = 0 ∧
      restartTarget w (.start url destination) = some destination) := by
  cases hd : w.m_isDownloading with
  | true => left; simp [startDownload, hd, emit, restartTarget]
  | false =>
    right
    cases ho : w.fs.unwritable (destination ++ ".part") with
    | true => simp [startDownload, hd, FileSystem.openAppend, ho, emit, restartTarget]
    | false => simp [startDownload, hd, FileSystem.openAppend, ho, restartTarget]

/-- How `cancelDownload` changes `m_retryCount`: not at all, or by one
upwards when it runs the transport-failure branch of `onFinished` below the
cap. -/
theorem cancelDownload_retryCount (w : DownloadManager) :
    (cancelDownload w).m_retryCount = w.m_retryCount ∨
    (cancelDownload w = onFinished w true [] ∧ w.m_reply.isSome = true ∧
      w.m_retryCount < MAX_RETRIES ∧
      (cancelDownload w).m_retryCount = w.m_retryCount + 1) := by
  by_cases hlive : ∃ r, w.m_reply = some r ∧ r.aborted = false
  · obtain ⟨r, hr, ha⟩ := hlive
    have hs := cancelDownload_of_live w r hr ha
    by_cases hc : w.m_retryCount < MAX_RETRIES
    · right
      refine ⟨hs, by simp [hr], hc, ?_⟩
      rw [hs]
      simp [onFinished, hc]
    · left
      rw [hs]
      simp [onFinished, hc, emit]
  · left
    have hquiet : ∀ r, w.m_reply = some r → r.aborted = true := by
      intro r hr
      cases ha : r.aborted with
      | true => rfl
      | false => exact absurd ⟨r, hr, ha⟩ hlive
    rw [cancelDownload_of_quiet w hquiet]
    cases hf : w.m_file <;> simp [hf]

/-- How one event changes `m_retryCount`: not at all, or back to `0` by an
accepted `startDownload` (also through `resumeDownload` or a retry), or by one
upwards in the transport-failure branch of `onFinished`, which runs when the
session reports `finished` with an error and inside the `abort()` of
`cancelDownload`. -/
theorem step_retryCount (w : DownloadManager) (e : Event) :
    ((step w e).m_retryCount = w.m_retryCount ∧
      ((step w e).m_reply.isSome = true → w.m_reply.isSome = true)) ∨
    ((step w e).m_retryCount = 0 ∧ (restartTarget w e).isSome = true) ∨
    (((∃ data, e = .finished true data) ∨ e = .cancel) ∧
      (∃ data, step w e = onFinished w true data) ∧ w.m_reply.isSome = true ∧
      w.m_retryCount < MAX_RETRIES ∧
      (step w e).m_retryCount = w.m_retryCount + 1 ∧ (step w e).m_reply = none) := by
  cases e with
  | start url destination =>
    rcases startDownload_retryCount w url destination with ⟨h1, h2, -⟩ | ⟨h1, h2⟩
    · left; exact ⟨h1, by simp only [step]; rw [h2]; exact id⟩
    · right; left; exact ⟨h1, by rw [h2]; rfl⟩
  | pause =>
    left
    cases hd : w.m_isDownloading with
    | false => simp [step, pauseDownload, hd]
    | true =>
      cases hr : w.m_reply <;> simp [step, pauseDownload, hd, hr]
  | resume =>
    cases hd : w.m_isDownloading with
    | true => left; simp [step, resumeDownload, hd]
    | false =>
      rcases startDownload_retryCount w w.m_url w.m_destination with ⟨h1, h2, h3⟩ | ⟨h1, -⟩
      · simp [restartTarget, hd] at h3
      · right; left
        simp only [step, resumeDownload, hd, restartTarget]
        exact ⟨h1, rfl⟩
  | cancel =>
    have hnone : (step w .cancel).m_reply = none := (cancelDownload_fields w).2.1
    rcases cancelDownload_retryCount w with k | ⟨k1, k2, k3, k4⟩
    · left
      exact ⟨k, by rw [hnone]; intro h; cases h⟩
    · right; right
      exact ⟨Or.inr rfl, ⟨[], k1⟩, k2, k3, k4, hnone⟩
  | progress b t =>
    left
    cases hr : w.m_reply.isSome <;> simp [step, hr, onDownloadProgress, emit]
  | readyRead data =>
    left
    cases hr : w.m_reply.isSome with
    | false => simp [step, hr]
    | true => cases hf : w.m_file <;> simp [step, hr, onReadyRead, hf]
  | finished error data =>
    cases hr : w.m_reply.isSome with
    | false => left; simp [step, hr]
    | true =>
      cases error with
      | false =>
        left
        cases hf : w.m_file <;> simp [step, hr, onFinished, hf, emit]
      | true =>
        by_cases hc : w.m_retryCount < MAX_RETRIES
        · right; right
          exact ⟨Or.inl ⟨data, rfl⟩, ⟨data, by simp [step, hr]⟩, rfl, hc,
            by simp [step, hr, onFinished, hc], by simp [step, hr, onFinished, hc]⟩
        · left; simp [step, hr, onFinished, hc, emit]
  | speedTick =>
    left
    cases ht : w.speedTimerActive <;> simp [step, ht, updateSpeed, calculateSpeed, emit]
  | retryFire =>
    by_cases hp : 0 < w.pendingRetries
    · cases hd : w.m_isDownloading with
      | true => left; simp [step, hp, resumeDownload, hd]
      | false =>
        rcases startDownload_retryCount { w with pendingRetries := w.pendingRetries - 1 }
          w.m_url w.m_destination with ⟨-, -, h3⟩ | ⟨h1, -⟩
        · simp [restartTarget, hd] at h3
        · right; left
          have hs : step w .retryFire
              = startDownload { w with pendingRetries := w.pendingRetries - 1 }
                  w.m_url w.m_destination := by
            simp only [step, hp, if_true, resumeDownload]
            rw [if_neg (by simp [hd])]
          rw [hs]
          exact ⟨h1, by simp [restartTarget, hp, hd]⟩
    · left; simp [step, hp]

/-- The retry counter is `0` while a session is held and at most `1`
otherwise, in every state reached from one where this holds. -/
theorem run_retryCount_inv (es : List Event) (w : DownloadManager)
    (h1 : w.m_reply.isSome = true → w.m_retryCount = 0)
    (h2 : w.m_retryCount = 0 ∨ w.m_retryCount = 1) :
    ((run w es).m_reply.isSome = true → (run w es).m_retryCount = 0) ∧
    ((run w es).m_retryCount = 0 ∨ (run w es).m_retryCount = 1) := by
  induction es generalizing w with
  | nil => exact ⟨h1, h2⟩
  | cons e es ih =>
    have hrun : run w (e :: es) = run (step w e) es := rfl
    rw [hrun]
    rcases step_retryCount w e with ⟨k1, k2⟩ | ⟨k1, -⟩ | ⟨-, -, k2, -, k4, k5⟩
    · exact ih (step w e) (fun hs => by rw [k1]; exact h1 (k2 hs)) (by rw [k1]; exact h2)
    · exact ih (step w e) (fun _ => k1) (Or.inl k1)
    · have h0 := h1 k2
      exact ih (step w e) (fun hs => by rw [k5] at hs; simp at hs)
        (Or.inr (by rw [k4, h0]; rfl))

/-- C24 (retry counter bound): in every state reached from a freshly
constructed manager by any sequence of events, `0 ≤ m_retryCount ≤ 3`; and an
event changes `m_retryCount` only by an accepted `startDownload` (reached
directly, through `resumeDownload` or through a retry), which sets it to `0`,
or by the transport-failure branch of `onFinished` below the cap, which adds
one; that branch runs when the session reports `finished` with an error, and
inside the `abort()` of `cancelDownload`, the whole event being that run of
`onFinished`. -/
theorem retryCount_bounded (fs : FileSystem) (es : List Event) :
    0 ≤ (run (DownloadManager.new fs) es).m_retryCount ∧
    (run (DownloadManager.new fs) es).m_retryCount ≤ 3 ∧
    ∀ (w : DownloadManager) (e : Event),
      (step w e).m_retryCount = w.m_retryCount ∨
      ((step w e).m_retryCount = 0 ∧ (restartTarget w e).isSome = true) ∨
      (((∃ data, e = .finished true data) ∨ e = .cancel) ∧
        (∃ data, step w e = onFinished w true data) ∧
        w.m_retryCount < MAX_RETRIES ∧
        (step w e).m_retryCount = w.m_retryCount + 1) := by
  have h := (run_retryCount_inv es (DownloadManager.new fs)
    (fun hs => by simp [DownloadManager.new] at hs) (Or.inl rfl)).2
  refine ⟨by omega, by omega, ?_⟩
  intro w e
  rcases step_retryCount w e with ⟨k1, -⟩ | k | ⟨k0, k1, -, k3, k4, -⟩
  · exact Or.inl k1
  · exact Or.inr (Or.inl k)
  · exact Or.inr (Or.inr ⟨k0, k1, k3, k4⟩)

/-! ## The total within one request -/

/-- C25 (total is fixed within a request): in a session whose reply delivers
its signals as `QNetworkReply` does and reports the same content length
`total` in every `downloadProgress` signal, once a `downloadProgress` signal
has arrived (`chunks` contains one), `m_totalBytes` after any further pieces
and signals of the session (`more`) is what it was after `chunks`, given that
the size of the partial file at the start plus a positive `total` is within
the `qint64` range. -/
theorem totalBytes_fixed_within_session (w : DownloadManager) (url destination : String)
    (total : Int) (chunks more : List (QByteArray × Bool))
    (hidle : w.m_isDownloading = false)
    (hopen : w.fs.unwritable (destination ++ ".part") = false)
    (hrange : 0 < total →
      w.fs.size (destination ++ ".part") + total < 9223372036854775808)
    (hreported : ∃ c ∈ chunks, c.2 = true) :
    (run (startDownload w url destination)
      (qtSessionEvents total 0 (chunks ++ more))).m_totalBytes
      = (run (startDownload w url destination)
          (qtSessionEvents total 0 chunks)).m_totalBytes := by
  by_cases htotal : 0 < total
  swap
  · rw [run_qtSession_unknown _ _ _ _ htotal, run_qtSession_unknown _ _ _ _ htotal]
  have hrange := hrange htotal
  obtain ⟨-, h2, -, -, -, -, -, -, -, -, -, -, h3, -⟩ :=
    startDownload_accepted w url destination hidle hopen
  have hsize : (startDownload w url destination).fs.size (destination ++ ".part")
      = w.fs.size (destination ++ ".part") + 0 := by
    rw [startDownload_size w url destination hidle hopen]; ring
  have ha := (run_qtSession (chunks ++ more) (startDownload w url destination)
    (destination ++ ".part") (w.fs.size (destination ++ ".part")) 0 total h2 h3 hsize
    (fs_size_nonneg _ _) htotal hrange).2.2.2
  have hb := (run_qtSession chunks (startDownload w url destination)
    (destination ++ ".part") (w.fs.size (destination ++ ".part")) 0 total h2 h3 hsize
    (fs_size_nonneg _ _) htotal hrange).2.2.2
  obtain ⟨c, hc, hc2⟩ := hreported
  have hany : chunks.any (fun c => c.2) = true := List.any_eq_true.mpr ⟨c, hc, hc2⟩
  have hany2 : (chunks ++ more).any (fun c => c.2) = true := by
    rw [List.any_append, hany]; rfl
  rw [ha, hb, hany, hany2]

/-- Instance of `totalBytes_fixed_within_session`: a fresh download of a
100-byte resource delivered as 60 then 40 bytes; the total after the second
`downloadProgress` signal is the total after the first, 100. -/
theorem totalBytes_fixed_within_session_witness :
    (run (startDownload (DownloadManager.new FileSystem.empty)
        "http://host/image.img" "/tmp/image.img")
      [.readyRead (List.replicate 60 0), .progress 60 100,
       .readyRead (List.replicate 40 0), .progress 100 100]).m_totalBytes
      = (run (startDownload (DownloadManager.new FileSystem.empty)
          "http://host/image.img" "/tmp/image.img")
        [.readyRead (List.replicate 60 0), .progress 60 100]).m_totalBytes ∧
    (run (startDownload (DownloadManager.new FileSystem.empty)
        "http://host/image.img" "/tmp/image.img")
      [.readyRead (List.replicate 60 0), .progress 60 100]).m_totalBytes = 100 :=
  ⟨totalBytes_fixed_within_session (DownloadManager.new FileSystem.empty)
      "http://host/image.img" "/tmp/image.img" 100 [(List.replicate 60 0, true)]
      [(List.replicate 40 0, true)] rfl rfl (fun _ => by decide)
      ⟨(List.replicate 60 0, true), by simp, rfl⟩,
   by decide⟩

/-! ## Deferred tasks -/

/-- C26 (deferred tasks on pause and cancel), as the code behaves:
`cancelDownload` and `pauseDownload` stop the sampling timer, so no tick is
dispatched after them, but they leave a retry scheduled by `onFinished`
pending (`cancelDownload` removes none, and adds none unless it aborts a
session that has not finished); when it fires, with the partial file still
writable, the download restarts and a new request is sent although the caller
called neither `startDownload` nor `resumeDownload`. -/
theorem pending_retry_survives_cancel (w : DownloadManager)
    (hpending : 0 < w.pendingRetries)
    (hopen : w.fs.unwritable (w.m_destination ++ ".part") = false) :
    ((cancelDownload w).speedTimerActive = false ∧
      step (cancelDownload w) .speedTick = cancelDownload w) ∧
    (w.pendingRetries ≤ (cancelDownload w).pendingRetries ∧
      ((∀ r, w.m_reply = some r → r.aborted = true) →
        (cancelDownload w).pendingRetries = w.pendingRetries) ∧
      (step (cancelDownload w) .retryFire).m_isDownloading = true ∧
      (step (cancelDownload w) .retryFire).sent.length = w.sent.length + 1) ∧
    ((pauseDownload w).pendingRetries = w.pendingRetries ∧
      (w.m_isDownloading = true →
        (step (pauseDownload w) .retryFire).m_isDownloading = true ∧
        (step (pauseDownload w) .retryFire).sent.length = w.sent.length + 1)) := by
  obtain ⟨hc2, -, -, hc3, -, -, -, -, -, hc5, -, hc6, hc4, hc1, -⟩ := cancelDownload_fields w
  have hc7 : (∀ r, w.m_reply = some r → r.aborted = true) →
      (cancelDownload w).pendingRetries = w.pendingRetries := by
    intro hquiet
    rw [cancelDownload_of_quiet w hquiet]
    cases hf : w.m_file <;> simp [hf]
  have hstepc : step (cancelDownload w) .retryFire
      = startDownload
          { cancelDownload w with pendingRetries := (cancelDownload w).pendingRetries - 1 }
          (cancelDownload w).m_url (cancelDownload w).m_destination := by
    have hp : 0 < (cancelDownload w).pendingRetries := Nat.lt_of_lt_of_le hpending hc1
    simp only [step, hp, if_true, resumeDownload]
    rw [if_neg (by simp [hc2])]
  have hacc := startDownload_accepted
      { cancelDownload w with pendingRetries := (cancelDownload w).pendingRetries - 1 }
      (cancelDownload w).m_url (cancelDownload w).m_destination hc2
      (by show (cancelDownload w).fs.unwritable _ = false; rw [hc4, hc5]; exact hopen)
  refine ⟨⟨hc3, by simp [step, hc3]⟩, ⟨hc1, hc7, ?_, ?_⟩, ?_, ?_⟩
  · rw [hstepc]; exact hacc.1
  · rw [hstepc, hacc.2.2.2.2.2.2.2.2.1]
    show (cancelDownload w).sent.length + 1 = _
    rw [hc6]
  · cases hd : w.m_isDownloading <;> simp [pauseDownload, hd]
  · intro hd
    have hp : pauseDownload w
        = { w with m_reply := w.m_reply.map (fun r => { r with aborted := true }),
                   m_isDownloading := false, speedTimerActive := false } := by
      simp [pauseDownload, hd]
    have hsteppause : step (pauseDownload w) .retryFire
        = startDownload
            { w with m_reply := w.m_reply.map (fun r => { r with aborted := true }),
                     m_isDownloading := false, speedTimerActive := false,
                     pendingRetries := w.pendingRetries - 1 }
            w.m_url w.m_destination := by
      rw [hp]
      simp [step, hpending, resumeDownload]
    have hacc2 := startDownload_accepted
        { w with m_reply := w.m_reply.map (fun r => { r with aborted := true }),
                 m_isDownloading := false, speedTimerActive := false,
                 pendingRetries := w.pendingRetries - 1 }
        w.m_url w.m_destination rfl hopen
    rw [hsteppause]
    exact ⟨hacc2.1, hacc2.2.2.2.2.2.2.2.2.1⟩

/-- Instance of `pending_retry_survives_cancel`: a download fails, the retry
is scheduled, the caller cancels, the retry fires: the manager is downloading
again and has sent a second request. -/
theorem pending_retry_survives_cancel_witness :
    (run (DownloadManager.new FileSystem.empty)
      [.start "http://host/image.img" "/tmp/image.img", .finished true [],
       .cancel, .retryFire]).m_isDownloading = true ∧
    (run (DownloadManager.new FileSystem.empty)
      [.start "http://host/image.img" "/tmp/image.img", .finished true [],
       .cancel, .retryFire]).sent.length = 2 :=
  have h := (pending_retry_survives_cancel
    (run (DownloadManager.new FileSystem.empty)
      [.start "http://host/image.img" "/tmp/image.img", .finished true []])
    (by decide) (by decide)).2.1
  ⟨h.2.2.1, h.2.2.2⟩

/-! ## The first sample after a resume -/

theorem startDownload_previousBytes (w : DownloadManager) (url destination : String) :
    (startDownload w url destination).m_previousBytes
      = if w.m_isDownloading then w.m_previousBytes else 0 := by
  cases hd : w.m_isDownloading with
  | true => simp [startDownload, hd, emit]
  | false =>
    cases ho : w.fs.unwritable (destination ++ ".part") with
    | true => simp [startDownload, hd, FileSystem.openAppend, ho, emit]
    | false => simp [startDownload, hd, FileSystem.openAppend, ho]

/-- C27 (speed after resume), as the code behaves: `startDownload` seeds
`m_bytesReceived` with the size `P` of the partial file but sets
`m_previousBytes` to `0`, so when chunks of `d` bytes in all arrive before the
first tick, that tick sets `m_downloadSpeed` to `P + d` and emits
`downloadSpeedUpdated(P + d)`. -/
theorem first_tick_after_resume_counts_partial_file (w : DownloadManager)
    (url destination : String) (content : QByteArray) (chunks : List (Int × Int))
    (hidle : w.m_isDownloading = false)
    (hopen : w.fs.unwritable (destination ++ ".part") = false)
    (hfile : w.fs.files (destination ++ ".part") = some content)
    (hchunks : ∀ c ∈ chunks, 0 ≤ c.1)
    (hrange : (content.length : Int) + chunkSum chunks < 9223372036854775808) :
    (startDownload w url destination).m_bytesReceived = (content.length : Int) ∧
    (startDownload w url destination).m_previousBytes = 0 ∧
    (sampleInterval (startDownload w url destination) chunks).m_downloadSpeed
      = (content.length : Int) + chunkSum chunks ∧
    (sampleInterval (startDownload w url destination) chunks).emitted.getLast?
      = some (.downloadSpeedUpdated ((content.length : Int) + chunkSum chunks)) := by
  obtain ⟨-, h2, -, -, -, -, -, -, -, h10, -, h12, -, h14⟩ :=
    startDownload_accepted w url destination hidle hopen
  have hsize : w.fs.size (destination ++ ".part") = (content.length : Int) := by
    simp [FileSystem.size, hfile]
  rw [hsize] at h10
  have hbytes := run_progress_bytesReceived chunks (startDownload w url destination) h2
    (by rw [h10]; exact Int.ofNat_nonneg _) hchunks (by rw [h10]; exact hrange)
  rw [h10] at hbytes
  obtain ⟨-, f2, f3, -, -⟩ := run_progress_frame chunks (startDownload w url destination) h2
  rw [h12] at f2
  rw [h14] at f3
  have hsum := chunkSum_nonneg chunks hchunks
  have hdiff : wrap64 ((run (startDownload w url destination) (progressEvents chunks)).m_bytesReceived
      - (run (startDownload w url destination) (progressEvents chunks)).m_previousBytes)
      = (content.length : Int) + chunkSum chunks := by
    rw [hbytes, f2, Int.sub_zero]
    have hP : (0 : Int) ≤ (content.length : Int) := Int.ofNat_nonneg _
    exact wrap64_of_range _ (by omega) hrange
  refine ⟨h10, h12, ?_, ?_⟩
  · simp [sampleInterval, step, f3, updateSpeed, calculateSpeed, emit, hdiff]
  · simp [sampleInterval, step, f3, updateSpeed, calculateSpeed, emit, hdiff]

/-- Instance of `first_tick_after_resume_counts_partial_file`: a partial file
of three bytes, 50 bytes received before the first tick, a reported speed of
53. -/
theorem first_tick_after_resume_counts_partial_file_witness :
    (sampleInterval (startDownload
      (DownloadManager.new (FileSystem.single "/tmp/image.img.part" [7, 7, 7]))
      "http://host/image.img" "/tmp/image.img") [(50, 0)]).m_downloadSpeed = 53 :=
  (first_tick_after_resume_counts_partial_file
    (DownloadManager.new (FileSystem.single "/tmp/image.img.part" [7, 7, 7]))
    "http://host/image.img" "/tmp/image.img" [7, 7, 7] [(50, 0)]
    rfl rfl (by decide) (by decide) (by decide)).2.2.1

/-! ## Sign of the reported speed -/

/-- An event keeps `0 ≤ m_previousBytes ≤ m_bytesReceived < 2 ^ 63` when it
satisfies `withinRange`. -/
theorem step_counters_inv (w : DownloadManager) (e : Event)
    (h0 : 0 ≤ w.m_previousBytes) (h1 : w.m_previousBytes ≤ w.m_bytesReceived)
    (h2 : w.m_bytesReceived < 9223372036854775808) (hr : withinRange w e) :
    0 ≤ (step w e).m_previousBytes ∧
    (step w e).m_previousBytes ≤ (step w e).m_bytesReceived ∧
    (step w e).m_bytesReceived < 9223372036854775808 := by
  cases e with
  | start url destination =>
    simp only [step]
    rw [startDownload_bytesReceived, startDownload_previousBytes]
    cases hd : w.m_isDownloading with
    | true => simp [h0, h1, h2]
    | false =>
      have hs := hr destination (by simp [restartTarget, hd])
      have hn := fs_size_nonneg w.fs (destination ++ ".part")
      simp [hn, hs]
  | pause =>
    cases hd : w.m_isDownloading <;> simp [step, pauseDownload, hd, h0, h1, h2]
  | resume =>
    cases hd : w.m_isDownloading with
    | true => simp [step, resumeDownload, hd, h0, h1, h2]
    | false =>
      have hs := hr w.m_destination (by simp [restartTarget, hd])
      have hn := fs_size_nonneg w.fs (w.m_destination ++ ".part")
      simp only [step, resumeDownload, hd]
      rw [if_neg (by simp), startDownload_bytesReceived, startDownload_previousBytes]
      simp [hd, hn, hs]
  | cancel =>
    obtain ⟨-, -, -, -, k1, -, k2, -⟩ := cancelDownload_fields w
    simp only [step]
    rw [k1, k2]
    exact ⟨h0, h1, h2⟩
  | progress b t =>
    obtain ⟨hb, hlt⟩ := hr
    have hw : wrap64 (w.m_bytesReceived + b) = w.m_bytesReceived + b :=
      wrap64_of_range _ (by omega) hlt
    cases hrp : w.m_reply.isSome with
    | false => simp [step, hrp, h0, h1, h2]
    | true =>
      simp only [step, hrp, if_true, onDownloadProgress, emit, hw]
      exact ⟨h0, by omega, hlt⟩
  | readyRead data =>
    cases hrp : w.m_reply.isSome with
    | false => simp [step, hrp, h0, h1, h2]
    | true => cases hf : w.m_file <;> simp [step, hrp, onReadyRead, hf, h0, h1, h2]
  | finished error data =>
    cases hrp : w.m_reply.isSome with
    | false => simp [step, hrp, h0, h1, h2]
    | true =>
      cases error with
      | true =>
        by_cases hc : w.m_retryCount < MAX_RETRIES
        · simp [step, hrp, onFinished, hc, h0, h1, h2]
        · simp [step, hrp, onFinished, hc, emit, h0, h1, h2]
      | false =>
        cases hf : w.m_file <;> simp [step, hrp, onFinished, hf, emit, h0, h1, h2]
  | speedTick =>
    cases ht : w.speedTimerActive with
    | false => simp [step, ht, h0, h1, h2]
    | true =>
      simp only [step, ht, if_true, updateSpeed, calculateSpeed, emit]
      exact ⟨by omega, le_refl _, h2⟩
  | retryFire =>
    by_cases hp : 0 < w.pendingRetries
    · cases hd : w.m_isDownloading with
      | true => simp [step, hp, resumeDownload, hd, h0, h1, h2]
      | false =>
        have hs := hr w.m_destination (by simp [restartTarget, hp, hd])
        have hn := fs_size_nonneg w.fs (w.m_destination ++ ".part")
        simp only [step, hp, if_true, resumeDownload]
        rw [if_neg (by simp [hd]), startDownload_bytesReceived, startDownload_previousBytes]
        simp [hd, hn, hs]
    · simp [step, hp, h0, h1, h2]

/-- An event adds to the reported speeds at most the difference of the two
counters, at a tick. -/
theorem step_reportedSpeeds (w : DownloadManager) (e : Event) :
    reportedSpeeds (step w e) = reportedSpeeds w ∨
    reportedSpeeds (step w e)
      = reportedSpeeds w ++ [wrap64 (w.m_bytesReceived - w.m_previousBytes)] := by
  cases e with
  | start url destination =>
    left
    cases hd : w.m_isDownloading with
    | true =>
      simp [step, startDownload, hd, emit, reportedSpeeds, List.filterMap_append,
        Signal.speed?]
    | false =>
      cases ho : w.fs.unwritable (destination ++ ".part") with
      | true =>
        simp [step, startDownload, hd, FileSystem.openAppend, ho, emit, reportedSpeeds,
          List.filterMap_append, Signal.speed?]
      | false => simp [step, startDownload, hd, FileSystem.openAppend, ho, reportedSpeeds]
  | pause =>
    left
    cases hd : w.m_isDownloading <;> simp [step, pauseDownload, hd, reportedSpeeds]
  | resume =>
    left
    cases hd : w.m_isDownloading with
    | true => simp [step, resumeDownload, hd]
    | false =>
      cases ho : w.fs.unwritable (w.m_destination ++ ".part") with
      | true =>
        simp [step, resumeDownload, startDownload, hd, FileSystem.openAppend, ho, emit,
          reportedSpeeds, List.filterMap_append, Signal.speed?]
      | false =>
        simp [step, resumeDownload, startDownload, hd, FileSystem.openAppend, ho,
          reportedSpeeds]
  | cancel =>
    left
    exact (cancelDownload_fields w).2.2.2.2.2.2.2.2.2.2.2.2.2.2
  | progress b t =>
    left
    cases hrp : w.m_reply.isSome <;>
      simp [step, hrp, onDownloadProgress, emit, reportedSpeeds, List.filterMap_append,
        Signal.speed?]
  | readyRead data =>
    left
    cases hrp : w.m_reply.isSome with
    | false => simp [step, hrp]
    | true => cases hf : w.m_file <;> simp [step, hrp, onReadyRead, hf, reportedSpeeds]
  | finished error data =>
    left
    cases hrp : w.m_reply.isSome with
    | false => simp [step, hrp]
    | true =>
      cases error with
      | true =>
        by_cases hc : w.m_retryCount < MAX_RETRIES
        · simp [step, hrp, onFinished, hc, reportedSpeeds]
        · simp [step, hrp, onFinished, hc, emit, reportedSpeeds, List.filterMap_append,
            Signal.speed?]
      | false =>
        cases hf : w.m_file <;>
          simp [step, hrp, onFinished, hf, emit, reportedSpeeds, List.filterMap_append,
            Signal.speed?]
  | speedTick =>
    cases ht : w.speedTimerActive with
    | false => left; simp [step, ht]
    | true =>
      right
      simp [step, ht, updateSpeed, calculateSpeed, emit, reportedSpeeds,
        List.filterMap_append, Signal.speed?]
  | retryFire =>
    left
    by_cases hp : 0 < w.pendingRetries
    · cases hd : w.m_isDownloading with
      | true => simp [step, hp, resumeDownload, hd, reportedSpeeds]
      | false =>
        cases ho : w.fs.unwritable (w.m_destination ++ ".part") with
        | true =>
          simp [step, hp, resumeDownload, startDownload, hd, FileSystem.openAppend, ho, emit,
            reportedSpeeds, List.filterMap_append, Signal.speed?]
        | false =>
          simp [step, hp, resumeDownload, startDownload, hd, FileSystem.openAppend, ho,
            reportedSpeeds]
    · simp [step, hp]

/-- The counters stay ordered and the reported speeds non-negative along a
run that stays within range. -/
theorem run_counters_inv (es : List Event) (w : DownloadManager)
    (h0 : 0 ≤ w.m_previousBytes) (h1 : w.m_previousBytes ≤ w.m_bytesReceived)
    (h2 : w.m_bytesReceived < 9223372036854775808)
    (h3 : ∀ v ∈ reportedSpeeds w, 0 ≤ v) (hr : runWithinRange w es) :
    0 ≤ (run w es).m_previousBytes ∧
    (run w es).m_previousBytes ≤ (run w es).m_bytesReceived ∧
    (run w es).m_bytesReceived < 9223372036854775808 ∧
    ∀ v ∈ reportedSpeeds (run w es), 0 ≤ v := by
  induction es generalizing w with
  | nil => exact ⟨h0, h1, h2, h3⟩
  | cons e es ih =>
    obtain ⟨hre, hrest⟩ := hr
    obtain ⟨k0, k1, k2⟩ := step_counters_inv w e h0 h1 h2 hre
    have k3 : ∀ v ∈ reportedSpeeds (step w e), 0 ≤ v := by
      intro v hv
      rcases step_reportedSpeeds w e with hs | hs
      · rw [hs] at hv; exact h3 v hv
      · rw [hs] at hv
        rcases List.mem_append.mp hv with hv | hv
        · exact h3 v hv
        · have hveq : v = wrap64 (w.m_bytesReceived - w.m_previousBytes) := by simpa using hv
          rw [hveq, wrap64_of_range _ (by omega) (by omega)]
          omega
    exact ih (step w e) k0 k1 k2 k3 hrest

/-- C28 (speed is never negative): in every state reached from a freshly
constructed manager by a sequence of events in which progress events carry
non-negative chunk sizes and the byte counter stays a `qint64`,
`m_previousBytes ≤ m_bytesReceived` holds, every speed reported so far is
non-negative, and a tick taken in that state reports the non-negative
difference of the two counters, with no clamping. -/
theorem speed_never_negative (fs : FileSystem) (es : List Event)
    (hrange : runWithinRange (DownloadManager.new fs) es) :
    (run (DownloadManager.new fs) es).m_previousBytes
      ≤ (run (DownloadManager.new fs) es).m_bytesReceived ∧
    (∀ v ∈ reportedSpeeds (run (DownloadManager.new fs) es), 0 ≤ v) ∧
    (updateSpeed (run (DownloadManager.new fs) es)).m_downloadSpeed
      = (run (DownloadManager.new fs) es).m_bytesReceived
        - (run (DownloadManager.new fs) es).m_previousBytes ∧
    0 ≤ (updateSpeed (run (DownloadManager.new fs) es)).m_downloadSpeed := by
  obtain ⟨k0, k1, k2, k3⟩ := run_counters_inv es (DownloadManager.new fs)
    (by simp [DownloadManager.new]) (by simp [DownloadManager.new])
    (by simp [DownloadManager.new]) (by simp [DownloadManager.new, reportedSpeeds]) hrange
  have hw : wrap64 ((run (DownloadManager.new fs) es).m_bytesReceived
      - (run (DownloadManager.new fs) es).m_previousBytes)
      = (run (DownloadManager.new fs) es).m_bytesReceived
        - (run (DownloadManager.new fs) es).m_previousBytes :=
    wrap64_of_range _ (by omega) (by omega)
  refine ⟨k1, k3, ?_, ?_⟩
  · simp [updateSpeed, calculateSpeed, emit, hw]
  · simp only [updateSpeed, calculateSpeed, emit, hw]
    omega

/-- Instance of `speed_never_negative`: a resume from a partial file of three
bytes, a tick, ten more bytes and a pause. -/
theorem speed_never_negative_witness :
    reportedSpeeds (run (DownloadManager.new (FileSystem.single "/tmp/image.img.part" [7, 7, 7]))
      [.start "http://host/image.img" "/tmp/image.img", .speedTick, .progress 10 0,
       .pause]) = [3] ∧
    ∀ v ∈ reportedSpeeds
      (run (DownloadManager.new (FileSystem.single "/tmp/image.img.part" [7, 7, 7]))
        [.start "http://host/image.img" "/tmp/image.img", .speedTick, .progress 10 0,
         .pause]), 0 ≤ v :=
  ⟨by decide,
   (speed_never_negative (FileSystem.single "/tmp/image.img.part" [7, 7, 7])
    [.start "http://host/image.img" "/tmp/image.img", .speedTick, .progress 10 0, .pause]
    (by
      refine ⟨?_, ?_, ?_, ?_, trivial⟩
      · intro d hd
        cases hd
        decide
      · intro d hd
        cases hd
      · exact ⟨by decide, by decide⟩
      · intro d hd
        cases hd)).2.1⟩

/-! ## Validation of the instance configuration -/

theorem image_not_found_ne_empty (p : String) : "Android image not found: " ++ p ≠ "" := by
  intro h
  have h2 := congrArg String.length h
  have h3 : "Android image not found: ".length = 25 := by decide
  have h4 : ("" : String).length = 0 := by decide
  simp [h3, h4] at h2

/-- C29 (validation consistency), as the code behaves: a configuration that
`isValid` accepts has an empty `validationError`, but the converse fails:
`validationError` is empty while `isValid` rejects exactly when the name is
set, the image exists, the lower bounds hold and the CPU cores or the RAM
exceed the maximum of the host, which `validationError` does not test. -/
theorem validationError_misses_upper_bounds (c : VMConfig) (host : Host) :
    (c.isValid host = true → c.validationError host = "") ∧
    ((c.validationError host = "" ∧ c.isValid host = false) ↔
      (c.m_name.isEmpty = false ∧ host.fileExists c.m_imagePath = true ∧
        1 ≤ c.m_cpuCores ∧ 512 ≤ c.m_ramMB ∧
        (c.m_cpuCores > VMConfig.getMaxCpuCores host ∨
          c.m_ramMB > VMConfig.getMaxRamMB host))) := by
  have hne := image_not_found_ne_empty c.m_imagePath
  have hn1 : "Instance name is required" ≠ "" := by decide
  have hn2 : "At least 1 CPU core required" ≠ "" := by decide
  have hn3 : "At least 512MB RAM required" ≠ "" := by decide
  cases hname : c.m_name.isEmpty with
  | true => simp [VMConfig.isValid, VMConfig.validationError, hname, hn1]
  | false =>
    cases himg : host.fileExists c.m_imagePath with
    | false => simp [VMConfig.isValid, VMConfig.validationError, hname, himg, hne]
    | true =>
      by_cases hc : c.m_cpuCores < 1
      · have hc' : ¬ (1 ≤ c.m_cpuCores) := by omega
        simp [VMConfig.isValid, VMConfig.validationError, hname, himg, hc, hn2, hc']
      · by_cases hr : c.m_ramMB < 512
        · have hr' : ¬ (512 ≤ c.m_ramMB) := by omega
          simp [VMConfig.isValid, VMConfig.validationError, hname, himg, hc, hr, hn3, hr']
        · have hc' : 1 ≤ c.m_cpuCores := by omega
          have hr' : 512 ≤ c.m_ramMB := by omega
          by_cases hcm : c.m_cpuCores > VMConfig.getMaxCpuCores host
          · simp [VMConfig.isValid, VMConfig.validationError, hname, himg, hc, hr, hcm,
              hc', hr']
          · by_cases hrm : c.m_ramMB > VMConfig.getMaxRamMB host
            · simp [VMConfig.isValid, VMConfig.validationError, hname, himg, hc, hr, hcm,
                hrm, hc', hr']
            · simp [VMConfig.isValid, VMConfig.validationError, hname, himg, hc, hr, hcm,
                hrm]

/-- Instance of `validationError_misses_upper_bounds`: a named configuration
with an existing image and 4096 MB of RAM asking for 5 CPU cores on a host of
4 threads and 16 GiB is rejected by `isValid` with an empty error text. -/
theorem validationError_misses_upper_bounds_witness :
    VMConfig.isValid
      { m_name := "My Android", m_imagePath := "/opt/linuxdroid/images/android.iso",
        m_diskPath := "", m_instancePath := "", m_cpuCores := 5, m_ramMB := 4096,
        m_resolution := { width := 1920, height := 1080 }, m_rootEnabled := false,
        m_lastError := "" }
      { fileExists := fun _ => true, idealThreadCount := 4, memTotalKB := some 16777216 }
      = false ∧
    VMConfig.validationError
      { m_name := "My Android", m_imagePath := "/opt/linuxdroid/images/android.iso",
        m_diskPath := "", m_instancePath := "", m_cpuCores := 5, m_ramMB := 4096,
        m_resolution := { width := 1920, height := 1080 }, m_rootEnabled := false,
        m_lastError := "" }
      { fileExists := fun _ => true, idealThreadCount := 4, memTotalKB := some 16777216 }
      = "" :=
  have h := ((validationError_misses_upper_bounds
      { m_name := "My Android", m_imagePath := "/opt/linuxdroid/images/android.iso",
        m_diskPath := "", m_instancePath := "", m_cpuCores := 5, m_ramMB := 4096,
        m_resolution := { width := 1920, height := 1080 }, m_rootEnabled := false,
        m_lastError := "" }
      { fileExists := fun _ => true, idealThreadCount := 4,
        memTotalKB := some 16777216 }).2).mpr
    ⟨by decide, rfl, by decide, by decide, Or.inl (by decide)⟩
  ⟨h.2, h.1⟩

/-! ## Minimum requirements and warnings -/

theorem kvmWarning_ne_prefixed (a : String) (c : Char) (l : List Char)
    (ha : a.data = c :: l) (hc : c ≠ 'K') (b : String) :
    a ++ b ≠ SystemChecker.kvmWarning := by
  intro h
  have h2 := congrArg (fun s : String => s.data.head?) h
  simp [ha, SystemChecker.kvmWarning] at h2
  exact hc h2

theorem ramWarning_ne_kvm (info : SystemInfo) :
    SystemChecker.ramWarning info ≠ SystemChecker.kvmWarning := by
  unfold SystemChecker.ramWarning
  rw [String.append_assoc, String.append_assoc, String.append_assoc]
  exact kvmWarning_ne_prefixed _ 'I' _ rfl (by decide) _

theorem cpuWarning_ne_kvm (info : SystemInfo) :
    SystemChecker.cpuWarning info ≠ SystemChecker.kvmWarning := by
  unfold SystemChecker.cpuWarning
  rw [String.append_assoc, String.append_assoc, String.append_assoc]
  exact kvmWarning_ne_prefixed _ 'I' _ rfl (by decide) _

theorem diskWarning_ne_kvm (info : SystemInfo) :
    SystemChecker.diskWarning info ≠ SystemChecker.kvmWarning := by
  unfold SystemChecker.diskWarning
  rw [String.append_assoc, String.append_assoc, String.append_assoc]
  exact kvmWarning_ne_prefixed _ 'I' _ rfl (by decide) _

theorem qemuWarning_ne_kvm : SystemChecker.qemuWarning ≠ SystemChecker.kvmWarning := by
  decide

/-- C30 (requirements and warnings agree): `meetsMinimumRequirements` is true
exactly when `cpuCores ≥ 2`, `totalRamMB ≥ 4096`, `diskSpaceGB ≥ 20` and QEMU
is installed, and exactly when `getWarnings` contains none of the warnings for
a missing QEMU, insufficient RAM, insufficient CPU cores and insufficient disk
space; when the requirements are not met `getWarnings` is non-empty, and when
they are met it holds at most the KVM warning. -/
theorem requirements_agree_with_warnings (info : SystemInfo) :
    (SystemChecker.meetsMinimumRequirements info = true ↔
      (2 ≤ info.cpuCores ∧ 4096 ≤ info.totalRamMB ∧ 20 ≤ info.diskSpaceGB ∧
        info.qemuInstalled = true)) ∧
    (SystemChecker.meetsMinimumRequirements info = true ↔
      (SystemChecker.qemuWarning ∉ SystemChecker.getWarnings info ∧
        SystemChecker.ramWarning info ∉ SystemChecker.getWarnings info ∧
        SystemChecker.cpuWarning info ∉ SystemChecker.getWarnings info ∧
        SystemChecker.diskWarning info ∉ SystemChecker.getWarnings info)) ∧
    (SystemChecker.meetsMinimumRequirements info = false →
      SystemChecker.getWarnings info ≠ []) ∧
    (SystemChecker.meetsMinimumRequirements info = true →
      SystemChecker.getWarnings info = [] ∨
      SystemChecker.getWarnings info = [SystemChecker.kvmWarning]) := by
  have hq := qemuWarning_ne_kvm
  have hr := ramWarning_ne_kvm info
  have hc := cpuWarning_ne_kvm info
  have hd := diskWarning_ne_kvm info
  have hmeets : SystemChecker.meetsMinimumRequirements info = true ↔
      (2 ≤ info.cpuCores ∧ 4096 ≤ info.totalRamMB ∧ 20 ≤ info.diskSpaceGB ∧
        info.qemuInstalled = true) := by
    simp [SystemChecker.meetsMinimumRequirements, SystemChecker.MIN_CPU_CORES,
      SystemChecker.MIN_RAM_MB, SystemChecker.MIN_DISK_GB, and_assoc]
  by_cases h1 : info.qemuInstalled = true
  · by_cases h3 : info.totalRamMB < 4096
    · have : ¬ (4096 ≤ info.totalRamMB) := by omega
      refine ⟨hmeets, ?_, ?_, ?_⟩ <;>
        simp [hmeets, SystemChecker.getWarnings, SystemChecker.MIN_CPU_CORES,
          SystemChecker.MIN_RAM_MB, SystemChecker.MIN_DISK_GB, h1, h3, this] <;>
        (try split_ifs) <;> (try simp)
    · by_cases h4 : info.cpuCores < 2
      · have : ¬ (2 ≤ info.cpuCores) := by omega
        refine ⟨hmeets, ?_, ?_, ?_⟩ <;>
          simp [hmeets, SystemChecker.getWarnings, SystemChecker.MIN_CPU_CORES,
            SystemChecker.MIN_RAM_MB, SystemChecker.MIN_DISK_GB, h1, h3, h4, this] <;>
          (try split_ifs) <;> (try simp)
      · by_cases h5 : info.diskSpaceGB < 20
        · have : ¬ (20 ≤ info.diskSpaceGB) := by omega
          refine ⟨hmeets, ?_, ?_, ?_⟩ <;>
            simp [hmeets, SystemChecker.getWarnings, SystemChecker.MIN_CPU_CORES,
              SystemChecker.MIN_RAM_MB, SystemChecker.MIN_DISK_GB, h1, h3, h4, h5, this]
        · have k3 : 4096 ≤ info.totalRamMB := by omega
          have k4 : 2 ≤ info.cpuCores := by omega
          have k5 : 20 ≤ info.diskSpaceGB := by omega
          refine ⟨hmeets, ?_, ?_, ?_⟩ <;>
            simp [hmeets, SystemChecker.getWarnings, SystemChecker.MIN_CPU_CORES,
              SystemChecker.MIN_RAM_MB, SystemChecker.MIN_DISK_GB, h1, h3, h4, h5, k3, k4,
              k5, hq, hr, hc, hd]
  · have h1' : info.qemuInstalled = false := by simpa using h1
    refine ⟨hmeets, ?_, ?_, ?_⟩ <;>
      simp [hmeets, SystemChecker.getWarnings, h1'] <;>
      (try split_ifs) <;> (try simp)

end Lulu
